import Mathlib

set_option linter.unusedVariables false

/-!
# Verification of the pg_hexedit page decoder

A shallow embedding, in Lean 4, of the page-decoding core of `pg_hexedit.c`
(the PostgreSQL relation-file annotation tool).  Pure fragments of the C code
become Lean functions over an explicit state; the page buffer is a byte
function `Nat → Nat` read little-endian, matching the x86-64 build that the
source targets (`MAXIMUM_ALIGNOF` 8, PostgreSQL 13 conditional code paths).
Constants that the source pulls from PostgreSQL headers
(`storage/bufpage.h`, `storage/itemid.h`, `access/*.h`) are embedded here with
their values on that build, each noted next to its definition.
-/

namespace PgHexedit

/-! ## Raw page bytes

A page buffer is a total function from byte offsets to byte values; `byteAt`
truncates to one byte, and the multi-byte readers assemble values
little-endian exactly as the C code's struct loads do on x86-64. -/

def byteAt (buf : Nat → Nat) (o : Nat) : Nat := buf o % 256

def read16 (buf : Nat → Nat) (o : Nat) : Nat :=
  byteAt buf o + 256 * byteAt buf (o + 1)

def read32 (buf : Nat → Nat) (o : Nat) : Nat :=
  read16 buf o + 65536 * read16 buf (o + 2)

/-- A little-endian read of 8 consecutive bytes as one 64-bit value.  This is
NOT what `GetPageLsn` does; it exists to state that the LSN is not decoded
this way. -/
def read64LE (buf : Nat → Nat) (o : Nat) : Nat :=
  read32 buf o + 4294967296 * read32 buf (o + 4)

/-! ## PageHeaderData layout (PostgreSQL `storage/bufpage.h`)

```
typedef struct PageHeaderData {
    PageXLogRecPtr pd_lsn;        /* offset 0:  { uint32 xlogid; uint32 xrecoff; } */
    uint16 pd_checksum;           /* offset 8  */
    uint16 pd_flags;              /* offset 10 */
    LocationIndex pd_lower;       /* offset 12 */
    LocationIndex pd_upper;       /* offset 14 */
    LocationIndex pd_special;     /* offset 16 */
    uint16 pd_pagesize_version;   /* offset 18 */
    TransactionId pd_prune_xid;   /* offset 20 */
    ItemIdData pd_linp[];         /* offset 24 */
} PageHeaderData;
```
`offsetof(PageHeaderData, pd_linp[0])` = `sizeof(PageHeaderData)` = 24 on the
target build (`pd_linp` is a flexible array member). -/

def sizeOfPageHeaderData : Nat := 24

def sizeOfItemIdData : Nat := 4

def pdLsnXlogid (buf : Nat → Nat) : Nat := read32 buf 0

def pdLsnXrecoff (buf : Nat → Nat) : Nat := read32 buf 4

def pdChecksum (buf : Nat → Nat) : Nat := read16 buf 8

def pdFlags (buf : Nat → Nat) : Nat := read16 buf 10

def pdLower (buf : Nat → Nat) : Nat := read16 buf 12

def pdUpper (buf : Nat → Nat) : Nat := read16 buf 14

def pdSpecial (buf : Nat → Nat) : Nat := read16 buf 16

def pdPagesizeVersion (buf : Nat → Nat) : Nat := read16 buf 18

/-- `MAXALIGN(LEN)` = `TYPEALIGN(MAXIMUM_ALIGNOF, LEN)` with
`MAXIMUM_ALIGNOF` = 8 on the target build. -/
def MAXALIGN (n : Nat) : Nat := (n + 7) / 8 * 8

/-- `PageGetPageLayoutVersion(page)` = `pd_pagesize_version & 0x00FF`. -/
def PageGetPageLayoutVersion (buf : Nat → Nat) : Nat := pdPagesizeVersion buf % 256

/-- `PG_PAGE_LAYOUT_VERSION` (the single supported layout version). -/
def PG_PAGE_LAYOUT_VERSION : Nat := 4

/-- `PageGetMaxOffsetNumber(page)`:
`pd_lower <= SizeOfPageHeaderData ? 0 : (pd_lower - SizeOfPageHeaderData) / sizeof(ItemIdData)`. -/
def PageGetMaxOffsetNumber (buf : Nat → Nat) : Nat :=
  if pdLower buf ≤ sizeOfPageHeaderData then 0
  else (pdLower buf - sizeOfPageHeaderData) / sizeOfItemIdData

/-- `PageIsNew(page)` = `pd_upper == 0` (the all-zero header sentinel of an
uninitialized page). -/
def PageIsNew (buf : Nat → Nat) : Prop := pdUpper buf = 0

instance (buf : Nat → Nat) : Decidable (PageIsNew buf) := by
  unfold PageIsNew; infer_instance

/-! ## Per-page input state

The C code keeps the current page in the globals `buffer`, `blockSize` and
`bytesToFormat`; we package the three into one value. -/

structure PageIn where
  buf : Nat → Nat
  blockSize : Nat
  bytesToFormat : Nat

/-- `GetPageLsn(page)` = `PageXLogRecPtrGet(pageHeader->pd_lsn)` where
`PageXLogRecPtrGet(ptr)` = `((uint64) (ptr).xlogid << 32 | (ptr).xrecoff)`:
the two independently stored 32-bit halves are reassembled high-then-low. -/
def GetPageLsn (buf : Nat → Nat) : Nat :=
  pdLsnXlogid buf * 4294967296 + pdLsnXrecoff buf

/-! ## The page classifier (`GetSpecialSectionType`) -/

/-- `specialSectionTypes`, the classifier's result enumeration. -/
inductive SpecialSection where
  | none
  | sequence
  | btree
  | hash
  | gist
  | gin
  | spgist
  | brin
  | errUnknown
  | errBoundary
deriving DecidableEq, Repr

/-- `SEQUENCE_MAGIC` (defined at the top of pg_hexedit.c). -/
def SEQUENCE_MAGIC : Nat := 0x1717

/-- `SPGIST_PAGE_ID` (`access/spgist_private.h`). -/
def SPGIST_PAGE_ID : Nat := 0xFF82

/-- `HASHO_PAGE_ID` (`access/hash.h`). -/
def HASHO_PAGE_ID : Nat := 0xFF80

/-- `GIST_PAGE_ID` (`access/gist.h`). -/
def GIST_PAGE_ID : Nat := 0xFF81

/-- `MAX_BT_CYCLE_ID` (`access/nbtree.h`). -/
def MAX_BT_CYCLE_ID : Nat := 0xFF7F

/-- `BRIN_PAGETYPE_META` (`access/brin_page.h`). -/
def BRIN_PAGETYPE_META : Nat := 0xF091

/-- `BRIN_PAGETYPE_REVMAP` (`access/brin_page.h`). -/
def BRIN_PAGETYPE_REVMAP : Nat := 0xF092

/-- `BRIN_PAGETYPE_REGULAR` (`access/brin_page.h`). -/
def BRIN_PAGETYPE_REGULAR : Nat := 0xF093

/-- `sizeof(uint32)`. -/
def sizeofUint32 : Nat := 4

/-- `sizeof(SpGistPageOpaqueData)`:
`{ uint16 flags; uint16 nRedirection; uint16 nPlaceholder; uint16 spgist_page_id; }` = 8. -/
def sizeofSpGistPageOpaqueData : Nat := 8

/-- `sizeof(BrinSpecialSpace)`:
`{ uint16 vector[MAXALIGN(1) / sizeof(uint16)]; }` = 8. -/
def sizeofBrinSpecialSpace : Nat := 8

/-- `sizeof(GinPageOpaqueData)`:
`{ BlockNumber rightlink; OffsetNumber maxoff; uint16 flags; }` = 8. -/
def sizeofGinPageOpaqueData : Nat := 8

/-- `sizeof(BTPageOpaqueData)`:
`{ BlockNumber btpo_prev; BlockNumber btpo_next; union btpo; uint16 btpo_flags;
BTCycleId btpo_cycleid; }` = 16. -/
def sizeofBTPageOpaqueData : Nat := 16

/-- `sizeof(HashPageOpaqueData)`:
`{ BlockNumber hasho_prevblkno; BlockNumber hasho_nextblkno; Bucket hasho_bucket;
uint16 hasho_flag; uint16 hasho_page_id; }` = 16. -/
def sizeofHashPageOpaqueData : Nat := 16

/-- `sizeof(GISTPageOpaqueData)`:
`{ GistNSN nsn; BlockNumber rightlink; uint16 flags; uint16 gist_page_id; }` = 16. -/
def sizeofGISTPageOpaqueData : Nat := 16

/-- `BrinPageType(page)` =
`((BrinSpecialSpace *) PageGetSpecialPointer(page))->vector[MAXALIGN(1) / sizeof(uint16) - 1]`,
i.e. the uint16 at byte offset 6 of the special section. -/
def BrinPageType (p : PageIn) : Nat := read16 p.buf (pdSpecial p.buf + 6)

/-- `IsBrinPage(page)`: requires a full read, then accepts the three BRIN
page-type words (`BRIN_IS_META_PAGE || BRIN_IS_REVMAP_PAGE || BRIN_IS_REGULAR_PAGE`). -/
def IsBrinPage (p : PageIn) : Prop :=
  p.bytesToFormat = p.blockSize ∧
    (BrinPageType p = BRIN_PAGETYPE_META ∨ BrinPageType p = BRIN_PAGETYPE_REVMAP ∨
      BrinPageType p = BRIN_PAGETYPE_REGULAR)

instance (p : PageIn) : Decidable (IsBrinPage p) := by
  unfold IsBrinPage; infer_instance

/-- `GetSpecialSectionType(page)`.  The C function first requires
`bytesToFormat > sizeof(PageHeaderData)` (otherwise `SPEC_SECT_ERROR_UNKNOWN`),
then bounds-checks `pd_special` (violation: `SPEC_SECT_ERROR_BOUNDARY`), then
dispatches on `specialSize = blockSize - pd_special`, consulting the page's
last two bytes (`ptype`) and, for the `MAXALIGN(sizeof(uint32))`-sized case,
the first 4 bytes of the special section (`specialValue`).  The branch order
below mirrors the source's `if`/`else if` chain exactly (including the
branches made unreachable by `MAXALIGN` = 8 making all of the 4-to-8-byte
opaque sizes coincide). -/
def GetSpecialSectionType (p : PageIn) : SpecialSection :=
  if p.bytesToFormat ≤ sizeOfPageHeaderData then .errUnknown
  else if pdSpecial p.buf = 0 ∨ pdSpecial p.buf > p.blockSize ∨
      pdSpecial p.buf > p.bytesToFormat then .errBoundary
  else if p.blockSize - pdSpecial p.buf = 0 then .none
  else if p.blockSize - pdSpecial p.buf = MAXALIGN sizeofUint32 then
    if p.bytesToFormat = p.blockSize then
      if read32 p.buf (pdSpecial p.buf) = SEQUENCE_MAGIC then .sequence
      else if p.blockSize - pdSpecial p.buf = MAXALIGN sizeofSpGistPageOpaqueData ∧
          read16 p.buf (p.blockSize - 2) = SPGIST_PAGE_ID then .spgist
      else if p.blockSize - pdSpecial p.buf = MAXALIGN sizeofBrinSpecialSpace ∧
          IsBrinPage p then .brin
      else if p.blockSize - pdSpecial p.buf = MAXALIGN sizeofGinPageOpaqueData then .gin
      else .errUnknown
    else .errUnknown
  else if p.blockSize - pdSpecial p.buf = MAXALIGN sizeofSpGistPageOpaqueData ∧
      p.bytesToFormat = p.blockSize ∧
      read16 p.buf (p.blockSize - 2) = SPGIST_PAGE_ID then .spgist
  else if p.blockSize - pdSpecial p.buf = MAXALIGN sizeofBrinSpecialSpace ∧
      IsBrinPage p then .brin
  else if p.blockSize - pdSpecial p.buf = MAXALIGN sizeofGinPageOpaqueData then .gin
  else if p.blockSize - pdSpecial p.buf > 2 ∧ p.bytesToFormat = p.blockSize then
    if read16 p.buf (p.blockSize - 2) ≤ MAX_BT_CYCLE_ID ∧
        p.blockSize - pdSpecial p.buf = MAXALIGN sizeofBTPageOpaqueData then .btree
    else if read16 p.buf (p.blockSize - 2) = HASHO_PAGE_ID ∧
        p.blockSize - pdSpecial p.buf = MAXALIGN sizeofHashPageOpaqueData then .hash
    else if read16 p.buf (p.blockSize - 2) = GIST_PAGE_ID ∧
        p.blockSize - pdSpecial p.buf = MAXALIGN sizeofGISTPageOpaqueData then .gist
    else .errUnknown
  else .errUnknown

/-! ## The page-header decoder (`EmitXmlPageHeader`) -/

/-- `EOF_ENCOUNTERED` (indicator for a partial read). -/
def EOF_ENCOUNTERED : Int := -1

/-- The caller-supplied options consumed by the decoding core
(`blockOptions` bits and the `-x` threshold). -/
structure Opts where
  checksums : Bool      -- BLOCK_CHECKSUMS (-k)
  zerosums : Bool       -- BLOCK_ZEROSUMS (-z)
  skipLsn : Bool        -- BLOCK_SKIP_LSN (-x)
  skipLeaf : Bool       -- BLOCK_SKIP_LEAF (-l)
  afterThreshold : Nat  -- -x threshold
deriving DecidableEq, Repr

/-- All options off (`blockOptions = 0`). -/
def noOpts : Opts :=
  { checksums := false, zerosums := false, skipLsn := false, skipLeaf := false,
    afterThreshold := 0 }

/-- What one `EmitXmlPageHeader` call produced: its return code, the updated
sticky error flag, the labels of the `EmitXmlTag` calls it made (in order),
and the two `printf` arguments of the LSN tag's text
(`sprintf(flagString, "LSN: %X/%08X", (uint32) (pageLSN >> 32), (uint32) pageLSN)`),
`Option.none` when the tag was not emitted. -/
structure PageHeaderResult where
  rc : Int
  exitCode : Nat
  tags : List String
  lsnText : Option (Nat × Nat)
deriving DecidableEq, Repr

/-- The labels of the eight fixed header tags `EmitXmlPageHeader` emits (the
`pd_flags` tag's label is dynamic in C — `"pd_flags - ..."` — and is embedded
here by its fixed prefix). -/
def headerTagNames : List String :=
  ["LSN", "checksum", "pd_flags", "pd_lower", "pd_upper", "pd_special",
   "pd_pagesize_version", "pd_prune_xid"]

/-- The header-sanity disjunction of `EmitXmlPageHeader` (the `maxOffset < 0`
disjunct of the C code is omitted: `maxOffset` is computed from the unsigned
`pd_lower` and is never negative). -/
def headerInvalid (p : PageIn) : Prop :=
  PageGetMaxOffsetNumber p.buf > p.blockSize ∨
  PageGetPageLayoutVersion p.buf ≠ PG_PAGE_LAYOUT_VERSION ∨
  pdUpper p.buf > p.blockSize ∨
  pdUpper p.buf > pdSpecial p.buf ∨
  pdLower p.buf < sizeOfPageHeaderData - sizeOfItemIdData ∨
  pdLower p.buf > p.blockSize ∨
  pdUpper p.buf < pdLower p.buf ∨
  pdSpecial p.buf > p.blockSize

instance (p : PageIn) : Decidable (headerInvalid p) := by
  unfold headerInvalid; infer_instance

/-- `EmitXmlPageHeader(page, blkno, level)`.

* If even the fixed header (minus the item array) was not read, no tags are
  emitted and `rc = EOF_ENCOUNTERED`.
* Otherwise all eight fixed header tags are emitted unconditionally; if the
  item-id array extends past the bytes read, `rc` is still set to
  `EOF_ENCOUNTERED`.
* The validity checks and the optional checksum verification only set the
  sticky error flag (`exitCode = 1`); they never stop the decode.
* At the end, `rc == EOF_ENCOUNTERED` also sets the sticky error flag.

`calcChecksum` stands for `pg_checksum_page(page, blkno + segmentBlockDelta)`,
whose FNV-based algorithm lives in PostgreSQL's `storage/checksum_impl.h`,
outside this repository; it is passed in as an input. -/
def EmitXmlPageHeader (p : PageIn) (opts : Opts) (calcChecksum : Nat)
    (exitCode : Nat) : PageHeaderResult :=
  if p.bytesToFormat < sizeOfPageHeaderData then
    { rc := EOF_ENCOUNTERED, exitCode := 1, tags := [], lsnText := Option.none }
  else
    let maxOffset := PageGetMaxOffsetNumber p.buf
    let rc : Int :=
      if 0 < maxOffset ∧
          p.bytesToFormat < sizeOfPageHeaderData + maxOffset * sizeOfItemIdData then
        EOF_ENCOUNTERED
      else 0
    let pageLSN := GetPageLsn p.buf
    let e1 := if headerInvalid p then 1 else exitCode
    let e2 :=
      if (opts.checksums = true ∨ (opts.zerosums = true ∧ pdChecksum p.buf ≠ 0)) ∧
          calcChecksum ≠ pdChecksum p.buf then 1
      else e1
    let e3 := if rc = EOF_ENCOUNTERED then 1 else e2
    { rc := rc, exitCode := e3, tags := headerTagNames,
      lsnText := Option.some (pageLSN / 4294967296 % 4294967296, pageLSN % 4294967296) }

/-! ## Special-section flag readers

Byte offsets of the flag words inside each variant's opaque struct, from the
PostgreSQL headers quoted above. -/

/-- `BTPageOpaque->btpo_flags` (byte offset 12 of the special section). -/
def btpoFlags (p : PageIn) : Nat := read16 p.buf (pdSpecial p.buf + 12)

/-- `GISTPageOpaque->flags` (byte offset 12 of the special section). -/
def gistFlags (p : PageIn) : Nat := read16 p.buf (pdSpecial p.buf + 12)

/-- `GinPageGetOpaque(page)->flags` (byte offset 6 of the special section). -/
def ginFlags (p : PageIn) : Nat := read16 p.buf (pdSpecial p.buf + 6)

/-- `SpGistPageGetOpaque(page)->flags` (byte offset 0 of the special section). -/
def spgistFlags (p : PageIn) : Nat := read16 p.buf (pdSpecial p.buf)

/-- `HashPageOpaque->hasho_flag` (byte offset 12 of the special section). -/
def hashoFlag (p : PageIn) : Nat := read16 p.buf (pdSpecial p.buf + 12)

/-- `GinPageIsLeaf` — `GIN_LEAF` = `(1 << 1)`. -/
def GinPageIsLeaf (p : PageIn) : Bool := ginFlags p &&& 2 != 0

/-- `GinPageIsData` — `GIN_DATA` = `(1 << 0)`. -/
def GinPageIsData (p : PageIn) : Bool := ginFlags p &&& 1 != 0

/-- `GinPageIsDeleted` — `GIN_DELETED` = `(1 << 2)`. -/
def GinPageIsDeleted (p : PageIn) : Bool := ginFlags p &&& 4 != 0

/-- `GistPageIsLeaf` — `F_LEAF` = `(1 << 0)`. -/
def GistPageIsLeaf (p : PageIn) : Bool := gistFlags p &&& 1 != 0

/-- `GistPageIsDeleted` — `F_DELETED` = `(1 << 1)`. -/
def GistPageIsDeleted (p : PageIn) : Bool := gistFlags p &&& 2 != 0

/-- `SpGistPageIsLeaf` — `SPGIST_LEAF` = `(1 << 2)`. -/
def SpGistPageIsLeaf (p : PageIn) : Bool := spgistFlags p &&& 4 != 0

/-- `BRIN_IS_REVMAP_PAGE(page)` — `BrinPageType(page) == BRIN_PAGETYPE_REVMAP`. -/
def BrinIsRevmapPage (p : PageIn) : Bool :=
  BrinPageType p == BRIN_PAGETYPE_REVMAP

/-- `IsHashBitmapPage(page)` — defensively requires a full read and a hash
page, then tests `hasho_flag & LH_BITMAP_PAGE` (`LH_BITMAP_PAGE` = `(1 << 2)`). -/
def IsHashBitmapPage (specialType : SpecialSection) (p : PageIn) : Bool :=
  if p.bytesToFormat != p.blockSize then false
  else if specialType != SpecialSection.hash then false
  else hashoFlag p &&& 4 != 0

/-- `IsLeafPage(page)` — the `-l` leaf-elision test, per variant (for btree a
root page never counts as a leaf). -/
def IsLeafPage (specialType : SpecialSection) (p : PageIn) : Bool :=
  match specialType with
  | .btree => (btpoFlags p &&& 1 != 0) && (btpoFlags p &&& 2 == 0)
  | .gist => GistPageIsLeaf p
  | .gin => GinPageIsLeaf p
  | .spgist => SpGistPageIsLeaf p
  | _ => false

/-! ## The line-pointer/tuple pass (`EmitXmlTuples`) -/

/-- One `ItemIdData` slot:
`{ unsigned lp_off:15; unsigned lp_flags:2; unsigned lp_len:15; }`
(bit-allocated LSB first on the little-endian target). -/
structure ItemIdM where
  lpOff : Nat
  lpFlags : Nat
  lpLen : Nat
deriving DecidableEq, Repr

/-- Decode the slot stored at 0-based index `k` of the item-id array (the C
`PageGetItemId(page, offset)` for `offset = k + 1`). -/
def slotAt (buf : Nat → Nat) (k : Nat) : ItemIdM :=
  let w := read32 buf (sizeOfPageHeaderData + sizeOfItemIdData * k)
  { lpOff := w % 32768, lpFlags := w / 32768 % 4, lpLen := w / 131072 }

/-- `lp_flags` values (`storage/itemid.h`). -/
def LP_UNUSED : Nat := 0

def LP_NORMAL : Nat := 1

def LP_REDIRECT : Nat := 2

def LP_DEAD : Nat := 3

/-- The `formatChoice` enumeration. -/
inductive FormatChoice where
  | heap
  | index
  | spgInner
  | spgLeaf
  | brin
deriving DecidableEq, Repr

/-- The `switch (specialType)` of `EmitXmlTuples` that picks a tuple decoder;
`Option.none` stands for the `default:` case (unsupported type), which uses
`ITEM_INDEX` after flagging an error. -/
def formatAsOf (specialType : SpecialSection) (p : PageIn) : Option FormatChoice :=
  match specialType with
  | .none => Option.some .heap
  | .sequence => Option.some .heap
  | .btree => Option.some .index
  | .hash => Option.some .index
  | .gist => Option.some .index
  | .gin => Option.some .index
  | .spgist =>
      if SpGistPageIsLeaf p then Option.some .spgLeaf else Option.some .spgInner
  | .brin => Option.some .brin
  | _ => Option.none

/-- How the per-slot loop body of `EmitXmlTuples` disposed of one slot. -/
inductive SlotOutcome where
  /-- `lp_len == 0` and not `LP_NORMAL`: silently skipped (`continue`). -/
  | skippedZero
  /-- `lp_len == 0` with `LP_NORMAL`: error reported, slot skipped. -/
  | errZeroNormal
  /-- `lp_len != 0` with `LP_REDIRECT` or `LP_UNUSED`: error reported, skipped. -/
  | errFlagsNonzero
  /-- `lp_off + lp_len` beyond `blockSize` or `bytesToFormat`: error, skipped. -/
  | errBounds
  /-- the slot's tuple decoder was invoked. -/
  | decoded (fmt : FormatChoice)
deriving DecidableEq, Repr

/-- Whether an outcome was one of the three reported errors. -/
def SlotOutcome.isError : SlotOutcome → Bool
  | .errZeroNormal => true
  | .errFlagsNonzero => true
  | .errBounds => true
  | _ => false

/-- The body of `EmitXmlTuples`' loop for one slot, given the already chosen
format.  Mirrors the source order: zero-length first (erroring only for
`LP_NORMAL`), then nonzero-length `LP_REDIRECT`/`LP_UNUSED`, then the
physical-fit check against both `blockSize` and `bytesToFormat`, and finally
the dispatch to the per-format tuple emitter. -/
def slotOutcome (p : PageIn) (fmt : FormatChoice) (lp : ItemIdM) : SlotOutcome :=
  if lp.lpLen = 0 then
    if lp.lpFlags = LP_NORMAL then .errZeroNormal else .skippedZero
  else if lp.lpFlags = LP_REDIRECT ∨ lp.lpFlags = LP_UNUSED then .errFlagsNonzero
  else if lp.lpOff + lp.lpLen > p.blockSize ∨ lp.lpOff + lp.lpLen > p.bytesToFormat then
    .errBounds
  else .decoded fmt

/-- Fold of the slot loop over 0-based slot indices, threading the sticky
error flag.  (The per-tuple emitters that run for a `decoded` slot are modeled
separately; their own internal error reporting is not threaded here.) -/
def tuplesLoop (p : PageIn) (fmt : FormatChoice) :
    List Nat → Nat → Nat × List SlotOutcome
  | [], e => (e, [])
  | k :: ks, e =>
      let o := slotOutcome p fmt (slotAt p.buf k)
      let e' := if o.isError then 1 else e
      let r := tuplesLoop p fmt ks e'
      (r.1, o :: r.2)

/-- `EmitXmlTuples(page, blkno)`: early return on an empty page, a corrupt
`maxOffset` error, the format-choice switch (whose `default:` flags an
error but continues with `ITEM_INDEX`), then the per-slot loop. -/
def EmitXmlTuples (specialType : SpecialSection) (p : PageIn)
    (exitCode : Nat) : Nat × List SlotOutcome :=
  let maxOffset := PageGetMaxOffsetNumber p.buf
  if maxOffset = 0 then (exitCode, [])
  else if maxOffset > p.blockSize then (1, [])
  else
    match formatAsOf specialType p with
    | Option.some fmt => tuplesLoop p fmt (List.range maxOffset) exitCode
    | Option.none => tuplesLoop p .index (List.range maxOffset) 1

/-! ## The per-page driver step (`EmitXmlPage`) and the page scan -/

/-- The cross-page mutable state of the driver: the first-seen special-section
type (`firstType`, initialized to `SPEC_SECT_ERROR_UNKNOWN`) and the sticky
process exit code. -/
structure DriverState where
  firstType : SpecialSection
  exitCode : Nat
deriving DecidableEq, Repr

/-- The driver state at program start. -/
def initialDriverState : DriverState :=
  { firstType := .errUnknown, exitCode := 0 }

/-- Which of `EmitXmlPage`'s mutually exclusive body paths ran after the
header was decoded. -/
inductive BodyKind where
  | metaPage
  | hashBitmap
  | gistDeleted
  | ginDeleted
  | postingTree
  | revmap
  | conventional (slots : List SlotOutcome)
deriving DecidableEq, Repr

/-- Observable events of one `EmitXmlPage` call (besides the tags recorded
inside `PageHeaderResult`). -/
inductive PageAction where
  /-- the special-section-type-changed error was reported -/
  | mismatchError
  /-- the whole-page "leaf page" tag was emitted (`-l`) -/
  | leafTag
  /-- `EmitXmlPageHeader` ran, with this result -/
  | headerTags (r : PageHeaderResult)
  /-- one of the body paths ran -/
  | body (k : BodyKind)
  /-- `EmitXmlSpecial` ran -/
  | special
deriving DecidableEq, Repr

/-- What one `EmitXmlPage` call returned: the updated driver state and the
events, in program order. -/
structure PageResult where
  ds : DriverState
  actions : List PageAction
deriving DecidableEq, Repr

/-- The exit-code effect of `EmitXmlPageMeta(blkno, level)`: each supported
metapage case requires its magic metapage block number (all of
`BTREE_METAPAGE`, `HASH_METAPAGE`, `GIN_METAPAGE_BLKNO`,
`SPGIST_METAPAGE_BLKNO`, `BRIN_METAPAGE_BLKNO` are block 0); anything else
reports "unsupported metapage special section type".  (The tag emission
itself is pure output.) -/
def emitXmlPageMetaExit (specialType : SpecialSection) (blkno : Nat)
    (exitCode : Nat) : Nat :=
  match specialType with
  | .btree => if blkno = 0 then exitCode else 1
  | .hash => if blkno = 0 then exitCode else 1
  | .gin => if blkno = 0 then exitCode else 1
  | .spgist => if blkno = 0 then exitCode else 1
  | .brin => if blkno = 0 then exitCode else 1
  | _ => 1

/-- The exit-code effect of `EmitXmlSpecial(blkno, level)`: the
`SPEC_SECT_NONE` and the two error types report "invalid special section
type"; every other case only emits tags. -/
def emitXmlSpecialExit (specialType : SpecialSection) (exitCode : Nat) : Nat :=
  match specialType with
  | .none => 1
  | .errUnknown => 1
  | .errBoundary => 1
  | _ => exitCode

/-- The body-path switch of `EmitXmlPage` (run only when the header decode did
not hit `EOF_ENCOUNTERED`), returning the path taken and the sticky error flag
after it.  The `conventional` path is `EmitXmlPageItemIdArray` (pure tag
output; its `default:` switch case is unreachable because `lp_flags` is a
2-bit field) followed by `EmitXmlTuples`. -/
def emitXmlPageBody (v : SpecialSection) (blkno segno : Nat) (p : PageIn)
    (exitCode : Nat) : BodyKind × Nat :=
  if blkno = 0 ∧ segno = 0 ∧ v ≠ .none ∧ v ≠ .gist ∧ v ≠ .sequence then
    (.metaPage, emitXmlPageMetaExit v blkno exitCode)
  else if v = .hash ∧ IsHashBitmapPage v p = true then (.hashBitmap, exitCode)
  else if v = .gist ∧ GistPageIsDeleted p = true then (.gistDeleted, exitCode)
  else if v = .gin ∧ GinPageIsDeleted p = true then (.ginDeleted, exitCode)
  else if v = .gin ∧ GinPageIsData p = true then (.postingTree, exitCode)
  else if v = .brin ∧ BrinIsRevmapPage p = true then (.revmap, exitCode)
  else
    let r := EmitXmlTuples v p exitCode
    (.conventional r.2, r.1)

/-- `EmitXmlPage(blkno)`.  In source order: the `PageIsNew` early return;
classification; the first-seen-type update and mismatch check; the `-x` LSN
skip; the `-l` leaf-page elision; `EmitXmlPageHeader` (abandoning the page on
a partial read); the body-path switch; and `EmitXmlSpecial` for every type
except `SPEC_SECT_NONE`.  `cksum` stands for the externally computed
`pg_checksum_page` value for this page. -/
def EmitXmlPage (opts : Opts) (cksum : Nat) (blkno segno : Nat) (p : PageIn)
    (ds : DriverState) : PageResult :=
  if PageIsNew p.buf then { ds := ds, actions := [] }
  else
    let v := GetSpecialSectionType p
    let ft := if ds.firstType = .errUnknown then v else ds.firstType
    let e0 := if ft ≠ v then 1 else ds.exitCode
    let acts0 : List PageAction := if ft ≠ v then [.mismatchError] else []
    if opts.skipLsn = true ∧ GetPageLsn p.buf < opts.afterThreshold then
      { ds := { firstType := ft, exitCode := e0 }, actions := acts0 }
    else if opts.skipLeaf = true ∧ IsLeafPage v p = true then
      { ds := { firstType := ft, exitCode := e0 }, actions := acts0 ++ [.leafTag] }
    else
      let hr := EmitXmlPageHeader p opts cksum e0
      if hr.rc = EOF_ENCOUNTERED then
        { ds := { firstType := ft, exitCode := hr.exitCode },
          actions := acts0 ++ [.headerTags hr] }
      else
        let b := emitXmlPageBody v blkno segno p hr.exitCode
        let e2 := if v ≠ .none then emitXmlSpecialExit v b.2 else b.2
        let acts2 : List PageAction :=
          if v ≠ .none then [.body b.1, .special] else [.body b.1]
        { ds := { firstType := ft, exitCode := e2 },
          actions := acts0 ++ [.headerTags hr] ++ acts2 }

/-- The per-block loop of the driver over a list of page reads, starting at
file block `blkno` (`cksum` supplies each page's externally computed
checksum). -/
def scanPages (opts : Opts) (cksum : PageIn → Nat) (segno : Nat) :
    List PageIn → Nat → DriverState → DriverState × List (List PageAction)
  | [], _, ds => (ds, [])
  | p :: ps, blkno, ds =>
      let r := EmitXmlPage opts (cksum p) blkno segno p ds
      let rest := scanPages opts cksum segno ps (blkno + 1) r.ds
      (rest.1, r.actions :: rest.2)

/-! ## The attribute walker (`EmitXmlAttributesData`)

Schema metadata comes from the `-D` option: the C code keeps four parallel
arrays `attlenrel`, `attnamerel`, `attcolorrel`, `attalignrel` of length
`nrelatts`; we keep one list of records. -/

/-- One `-D` column: `attlen` (-1 = varlena, -2 = NUL-terminated C string,
positive = fixed width), name, display color, alignment class
(`'c'`/`'s'`/`'i'`/`'d'`). -/
structure SchemaAtt where
  attlen : Int
  attname : String
  attcolor : String
  attalign : Char
deriving DecidableEq, Repr

/-- `att_isnull(ATT, BITS)` = `!((BITS)[(ATT) >> 3] & (1 << ((ATT) & 0x07)))`:
a clear bit marks a NULL attribute. -/
def att_isnull (i : Nat) (bits : Nat → Nat) : Prop :=
  byteAt bits (i / 8) / 2 ^ (i % 8) % 2 = 0

instance (i : Nat) (bits : Nat → Nat) : Decidable (att_isnull i bits) := by
  unfold att_isnull; infer_instance

/-- `t_bits && att_isnull(i, t_bits)` (no bitmap means no NULLs). -/
def isNullAt (i : Nat) : Option (Nat → Nat) → Prop
  | Option.none => False
  | Option.some bits => att_isnull i bits

instance (i : Nat) (b : Option (Nat → Nat)) : Decidable (isNullAt i b) := by
  cases b <;> simp only [isNullAt] <;> infer_instance

/-- `att_align_nominal(cur_offset, attalign)` (`access/tupmacs.h`):
`'i'` → int align (4), `'c'` → none, `'d'` → double align (8),
anything else → short align (2). -/
def att_align_nominal (off : Nat) (attalign : Char) : Nat :=
  if attalign = 'i' then (off + 3) / 4 * 4
  else if attalign = 'c' then off
  else if attalign = 'd' then (off + 7) / 8 * 8
  else (off + 1) / 2 * 2

/-- `att_align_pointer(cur_offset, attalign, attlen, attptr)`: skip alignment
when `attlen == -1` and the byte at `attptr` is not a pad byte
(`VARATT_NOT_PAD_BYTE`). -/
def att_align_pointer (off : Nat) (attalign : Char) (attlen : Int)
    (firstByte : Nat) : Nat :=
  if attlen = -1 ∧ firstByte ≠ 0 then off else att_align_nominal off attalign

/-! varlena header decoding (`postgres.h`, little-endian variants). -/

/-- `VARTAG_SIZE(tag)`: `VARTAG_INDIRECT` (1) → `sizeof(varatt_indirect)` = 8;
`VARTAG_EXPANDED_RO`/`RW` (2/3) → `sizeof(varatt_expanded)` = 8;
`VARTAG_ONDISK` (18) → `sizeof(varatt_external)` = 16; anything else falls to
`TrapMacro(true, ...)`, which this frontend build defines as `(true)`,
i.e. the value 1. -/
def VARTAG_SIZE (tag : Nat) : Nat :=
  if tag = 1 then 8
  else if tag = 2 ∨ tag = 3 then 8
  else if tag = 18 then 16
  else 1

/-- `VARSIZE_ANY(PTR)`: external (first byte = 0x01) →
`VARHDRSZ_EXTERNAL (2) + VARTAG_SIZE(va_tag)`; 1-byte header (odd first
byte) → `(header >> 1) & 0x7F`; otherwise 4-byte header →
`(header >> 2) & 0x3FFFFFFF` of the little-endian 32-bit word. -/
def VARSIZE_ANY (bytes : Nat → Nat) (o : Nat) : Nat :=
  if byteAt bytes o = 1 then 2 + VARTAG_SIZE (byteAt bytes (o + 1))
  else if byteAt bytes o % 2 = 1 then byteAt bytes o / 2 % 128
  else read32 bytes o / 4 % 1073741824

/-- `strnlen(s, n)` over the byte function: the number of bytes before the
first NUL, at most `n`.  (The `att_addlength_pointer` macro uses unbounded
`strlen`; we model it with the same bound the adjacent `strnlen` call uses,
which coincides whenever the string is NUL-terminated inside the attribute
area.) -/
def strnlenB (bytes : Nat → Nat) (o : Nat) : Nat → Nat
  | 0 => 0
  | n + 1 => if byteAt bytes o = 0 then 0 else 1 + strnlenB bytes (o + 1) n

/-- The kind of tag the walker emits for one column: the small varlena-header
tag, or the attribute-value tag. -/
inductive TagKind where
  | header
  | value
deriving DecidableEq, Repr

/-- One emitted attribute tag: the 0-based column it belongs to, its kind, its
label, and its inclusive byte range (file-relative). -/
structure AttrTag where
  col : Nat
  kind : TagKind
  name : String
  lo : Nat
  hi : Nat
deriving DecidableEq, Repr

/-- The body of `EmitXmlAttributesData`'s loop, as structural recursion over
the remaining columns.  `i` is the current column number, `off` the current
data offset, `e` the sticky error flag.  Returns the emitted tags, the final
error flag, and whether the walk aborted on the out-of-bounds check
(`datalen < off + attlen`, which reports an error and returns early).
Mirrors the source exactly, including its use of `attptr` (the data pointer
from the end of the previous iteration, i.e. the byte at the pre-alignment
offset) in the varlena header tests and the `-2` `strnlen`. -/
def emitAttrsLoop (tupdata : Nat → Nat) (t_bits : Option (Nat → Nat))
    (datalen : Int) (relfileOff : Nat) :
    List SchemaAtt → Nat → Nat → Nat → List AttrTag × Nat × Bool
  | [], _, _, e => ([], e, false)
  | att :: rest, i, off, e =>
      if isNullAt i t_bits then
        emitAttrsLoop tupdata t_bits datalen relfileOff rest (i + 1) off e
      else if att.attlen = -1 then
        -- varlena: align (pointer-aware), take VARSIZE_ANY at the aligned
        -- offset, but test the header class at the pre-alignment byte
        let off1 := att_align_pointer off att.attalign (-1) (byteAt tupdata off)
        let hdr : List AttrTag :=
          if byteAt tupdata off % 2 = 1 then
            [{ col := i, kind := .header,
               name := if byteAt tupdata off = 1 then "varattrib_1b_e" else "varattrib_1b",
               lo := relfileOff + off1, hi := relfileOff + off1 }]
          else
            [{ col := i, kind := .header,
               name := if byteAt tupdata off % 4 = 0 then "va_4byte" else "va_compressed",
               lo := relfileOff + off1, hi := relfileOff + off1 + 3 }]
        let truestartoff := if byteAt tupdata off % 2 = 1 then 1 else 4
        let truelen := VARSIZE_ANY tupdata off1 - truestartoff
        if datalen < (off1 : Int) + att.attlen then (hdr, 1, true)
        else
          let vtag : AttrTag :=
            { col := i, kind := .value, name := att.attname,
              lo := relfileOff + off1 + truestartoff,
              hi := relfileOff + off1 + truestartoff + truelen - 1 }
          let off2 := off1 + VARSIZE_ANY tupdata off1
          let r := emitAttrsLoop tupdata t_bits datalen relfileOff rest (i + 1) off2 e
          (hdr ++ vtag :: r.1, r.2)
      else if att.attlen = -2 then
        let off1 := att_align_nominal off att.attalign
        let truelen := strnlenB tupdata off (datalen - off1).toNat + 1
        if datalen < (off1 : Int) + att.attlen then ([], 1, true)
        else
          let vtag : AttrTag :=
            { col := i, kind := .value, name := att.attname,
              lo := relfileOff + off1,
              hi := relfileOff + off1 + truelen - 1 }
          let off2 := off1 + (strnlenB tupdata off1 (datalen - off1).toNat + 1)
          let r := emitAttrsLoop tupdata t_bits datalen relfileOff rest (i + 1) off2 e
          (vtag :: r.1, r.2)
      else
        let off1 := att_align_nominal off att.attalign
        let truelen := att.attlen.toNat
        if datalen < (off1 : Int) + att.attlen then ([], 1, true)
        else
          let vtag : AttrTag :=
            { col := i, kind := .value, name := att.attname,
              lo := relfileOff + off1,
              hi := relfileOff + off1 + truelen - 1 }
          let off2 := off1 + att.attlen.toNat
          let r := emitAttrsLoop tupdata t_bits datalen relfileOff rest (i + 1) off2 e
          (vtag :: r.1, r.2)

/-- `EmitXmlAttributesData(blkno, offset, relfileOff, tupdata, t_bits, nattrs, datalen)`:
walk the first `nattrs` caller-supplied columns over the tuple's data area. -/
def EmitXmlAttributesData (schema : List SchemaAtt) (nattrs : Nat)
    (tupdata : Nat → Nat) (t_bits : Option (Nat → Nat)) (datalen : Int)
    (relfileOff : Nat) (exitCode : Nat) : List AttrTag × Nat × Bool :=
  emitAttrsLoop tupdata t_bits datalen relfileOff (schema.take nattrs) 0 0 exitCode

/-! ## IndexTuple accessors (`access/itup.h`, with the PostgreSQL 13
`access/nbtree.h` and `access/ginblock.h` macros used by the source)

An index tuple is modeled as its bytes, offsets relative to the tuple start:
`t_tid` = `{ uint16 bi_hi; uint16 bi_lo; uint16 offsetNumber; }` at offset 0,
`t_info : uint16` at offset 6. -/

def itupBiHi (itup : Nat → Nat) : Nat := read16 itup 0

def itupBiLo (itup : Nat → Nat) : Nat := read16 itup 2

def itupOffsetNumber (itup : Nat → Nat) : Nat := read16 itup 4

def itupTInfo (itup : Nat → Nat) : Nat := read16 itup 6

/-- `IndexTupleSize(itup)` = `t_info & INDEX_SIZE_MASK` (0x1FFF). -/
def IndexTupleSize (itup : Nat → Nat) : Nat := itupTInfo itup % 8192

/-- `IndexTupleHasNulls(itup)` = `t_info & INDEX_NULL_MASK` (0x8000). -/
def IndexTupleHasNulls (itup : Nat → Nat) : Prop := itupTInfo itup / 32768 % 2 = 1

instance (itup : Nat → Nat) : Decidable (IndexTupleHasNulls itup) := by
  unfold IndexTupleHasNulls; infer_instance

/-- `IndexInfoFindDataOffset(t_info)`: `MAXALIGN(sizeof(IndexTupleData))` = 8
without a NULL bitmap, else
`MAXALIGN(sizeof(IndexTupleData) + sizeof(IndexAttributeBitMapData))`
= `MAXALIGN(8 + 4)` = 16. -/
def IndexInfoFindDataOffset (tinfo : Nat) : Nat :=
  if tinfo / 32768 % 2 = 0 then MAXALIGN 8 else MAXALIGN 12

/-- `ItemPointerGetBlockNumberNoCheck` / `GinItemPointerGetBlockNumber`:
`(bi_hi << 16) | bi_lo`. -/
def itupBlockNumber (itup : Nat → Nat) : Nat :=
  itupBiHi itup * 65536 + itupBiLo itup

/-- `GinGetNPosting(itup)` — the offset-number field, repurposed as the
posting-list item count on GIN entry-tree leaf tuples. -/
def GinGetNPosting (itup : Nat → Nat) : Nat := itupOffsetNumber itup

/-- `GinIsPostingTree(itup)` — offset number equals `GIN_TREE_POSTING`
(0xFFFF). -/
def GinIsPostingTree (itup : Nat → Nat) : Prop := itupOffsetNumber itup = 65535

instance (itup : Nat → Nat) : Decidable (GinIsPostingTree itup) := by
  unfold GinIsPostingTree; infer_instance

/-- `GinGetPostingOffset(itup)` — the block-number field with the
`GIN_ITUP_COMPRESSED` bit (bit 31) masked off. -/
def GinGetPostingOffset (itup : Nat → Nat) : Nat :=
  itupBlockNumber itup % 2147483648

/-- `GinItupIsCompressed(itup)` — bit 31 of the block-number field. -/
def GinItupIsCompressed (itup : Nat → Nat) : Prop :=
  itupBlockNumber itup / 2147483648 % 2 = 1

instance (itup : Nat → Nat) : Decidable (GinItupIsCompressed itup) := by
  unfold GinItupIsCompressed; infer_instance

/-- `INDEX_ALT_TID_MASK` (= `INDEX_AM_RESERVED_BIT`, 0x2000) of `t_info`. -/
def indexAltTidSet (itup : Nat → Nat) : Prop := itupTInfo itup / 8192 % 2 = 1

instance (itup : Nat → Nat) : Decidable (indexAltTidSet itup) := by
  unfold indexAltTidSet; infer_instance

/-- `BTreeTupleIsPivot(itup)` (PostgreSQL 13): `INDEX_ALT_TID_MASK` set and
`BT_IS_POSTING` (0x2000) clear in the offset-number field. -/
def BTreeTupleIsPivot (itup : Nat → Nat) : Prop :=
  indexAltTidSet itup ∧ itupOffsetNumber itup / 8192 % 2 = 0

instance (itup : Nat → Nat) : Decidable (BTreeTupleIsPivot itup) := by
  unfold BTreeTupleIsPivot; infer_instance

/-- `BTreeTupleIsPosting(itup)` (PostgreSQL 13): `INDEX_ALT_TID_MASK` set and
`BT_IS_POSTING` set. -/
def BTreeTupleIsPosting (itup : Nat → Nat) : Prop :=
  indexAltTidSet itup ∧ itupOffsetNumber itup / 8192 % 2 = 1

instance (itup : Nat → Nat) : Decidable (BTreeTupleIsPosting itup) := by
  unfold BTreeTupleIsPosting; infer_instance

/-- `BT_OFFSET_MASK` (0x0FFF) applied to the offset-number field: the
truncated pivot tuple's attribute count (`BTreeTupleGetNAtts`). -/
def btreeTupleNAtts (itup : Nat → Nat) : Nat := itupOffsetNumber itup % 4096

/-- `BTreeTupleGetNPosting(itup)`. -/
def BTreeTupleGetNPosting (itup : Nat → Nat) : Nat := itupOffsetNumber itup % 4096

/-- `BTreeTupleGetPostingOffset(itup)` — the block-number field. -/
def BTreeTupleGetPostingOffset (itup : Nat → Nat) : Nat := itupBlockNumber itup

/-- For a pivot tuple, whether `BTreeTupleGetHeapTID(itup)` is non-NULL:
`BT_PIVOT_HEAP_TID_ATTR` (0x1000) set in the offset-number field. -/
def btreePivotHasHeapTID (itup : Nat → Nat) : Prop :=
  itupOffsetNumber itup / 4096 % 2 = 1

instance (itup : Nat → Nat) : Decidable (btreePivotHasHeapTID itup) := by
  unfold btreePivotHasHeapTID; infer_instance

/-- `sizeof(ItemPointerData)` = 6. -/
def sizeofItemPointerData : Nat := 6

/-- `MAXALIGN` applied to a C `int`, whose value the macro casts to the
unsigned `uintptr_t` (so a negative length becomes a huge aligned value,
exactly as in C). -/
def MAXALIGNI (n : Int) : Int :=
  (n.emod 18446744073709551616 + 7) / 8 * 8

/-! ## Index-tuple attribute decoding (`EmitXmlAttributesIndex`) -/

/-- A plain emitted tag (label and inclusive file-relative byte range). -/
structure TagM where
  name : String
  lo : Nat
  hi : Nat
deriving DecidableEq, Repr

/-- How `EmitXmlAttributesIndex` rendered the attribute area: per-column tags
from the `-D` schema (with the walker's aborted flag), or one opaque
`"contents"` tag. -/
inductive AttrAreaOut where
  | perColumn (tags : List AttrTag) (aborted : Bool)
  | contents (t : TagM)
deriving DecidableEq, Repr

/-- Result of `EmitXmlAttributesIndex`: the pivot-heap-TID or posting-list TID
tags emitted by the nbtree special cases, the attribute-area rendering, and
the final sticky error flag. -/
structure IndexAttrsResult where
  tidTags : List TagM
  area : AttrAreaOut
  exitCode : Nat
deriving DecidableEq, Repr

/-- The three `BTreeTupleGetHeapTID()` sub-tags of a truncated pivot tuple. -/
def pivotHeapTidTags (htidoffset : Nat) : List TagM :=
  [{ name := "BTreeTupleGetHeapTID()->bi_hi", lo := htidoffset, hi := htidoffset + 1 },
   { name := "BTreeTupleGetHeapTID()->bi_lo", lo := htidoffset + 2, hi := htidoffset + 3 },
   { name := "BTreeTupleGetHeapTID()->offsetNumber", lo := htidoffset + 4, hi := htidoffset + 5 }]

/-- The `3 * n` per-TID sub-tags of an nbtree posting-list tuple, starting at
`postoffset`, 6 bytes per TID. -/
def btreePostingTidTags (postoffset : Nat) (n : Nat) : List TagM :=
  (List.range n).flatMap (fun i =>
    [{ name := s!"TID[{i}] bi_hi", lo := postoffset + 6 * i, hi := postoffset + 6 * i + 1 },
     { name := s!"TID[{i}] bi_lo", lo := postoffset + 6 * i + 2, hi := postoffset + 6 * i + 3 },
     { name := s!"TID[{i}] offsetNumber", lo := postoffset + 6 * i + 4, hi := postoffset + 6 * i + 5 }])

/-- The tail of `EmitXmlAttributesIndex`: emit the per-column tags when tuple
metadata is usable, else the single gray `"contents"` tag covering
`[relfileOff, relfileOff + datalen]`. -/
def attrAreaFinish (schema : List SchemaAtt) (haveargreltuple : Bool)
    (nattrs : Nat) (tupdata : Nat → Nat)
    (t_bits : Option (Nat → Nat)) (datalen : Int) (relfileOff : Nat)
    (tidTags : List TagM) (e : Nat) : IndexAttrsResult :=
  if haveargreltuple = true then
    let w := EmitXmlAttributesData schema nattrs tupdata t_bits
      (MAXALIGNI datalen) relfileOff e
    { tidTags := tidTags, area := .perColumn w.1 w.2.2, exitCode := w.2.1 }
  else
    { tidTags := tidTags,
      area := .contents
        { name := "contents", lo := relfileOff,
          hi := ((relfileOff : Int) + datalen).toNat },
      exitCode := e }

/-- `EmitXmlAttributesIndex(blkno, offset, relfileOff, itup, tupHeaderOff, itemSize)`.

* `haveargreltuple` is cleared when no `-D` schema was given, when the sticky
  error flag is already set, or on a GIN page with a multi-column schema.
* The nbtree truncated-pivot case replaces the attribute count with the one
  stored in the offset-number field (erroring if it exceeds the schema), and
  carves the pivot heap TID out of the data area.
* The nbtree posting-list case (`BTreeTupleIsPosting`) emits per-TID sub-tags
  and shrinks the data area to the key prefix.
* Finally the attribute area is rendered (`attrAreaFinish`). -/
def EmitXmlAttributesIndex (specialType : SpecialSection)
    (schema : List SchemaAtt) (relfileOff : Nat) (itup : Nat → Nat)
    (tupHeaderOff : Nat) (itemSize : Int) (exitCode : Nat) : IndexAttrsResult :=
  let haveargreltuple : Bool :=
    ! decide (schema.length = 0 ∨ exitCode ≠ 0 ∨
      (specialType = .gin ∧ schema.length > 1))
  let dataOff := IndexInfoFindDataOffset (itupTInfo itup)
  let tupdata : Nat → Nat := fun k => itup (dataOff + k)
  let t_bits : Option (Nat → Nat) :=
    if IndexTupleHasNulls itup then Option.some (fun k => itup (8 + k))
    else Option.none
  let datalen : Int := itemSize - dataOff - 1
  if specialType = .btree ∧ BTreeTupleIsPivot itup then
    let nattrs0 := btreeTupleNAtts itup
    let toomany : Bool := haveargreltuple && decide (nattrs0 > schema.length)
    let e1 := if toomany = true then 1 else exitCode
    let nattrs := if toomany = true then schema.length else nattrs0
    if btreePivotHasHeapTID itup then
      let htidoffset := tupHeaderOff + IndexTupleSize itup - sizeofItemPointerData
      attrAreaFinish schema haveargreltuple nattrs tupdata t_bits
        (datalen - sizeofItemPointerData) relfileOff (pivotHeapTidTags htidoffset) e1
    else
      attrAreaFinish schema haveargreltuple nattrs tupdata t_bits datalen
        relfileOff [] e1
  else if specialType = .btree ∧ BTreeTupleIsPosting itup then
    let postoffset := tupHeaderOff + BTreeTupleGetPostingOffset itup
    attrAreaFinish schema haveargreltuple schema.length tupdata t_bits
      ((postoffset : Int) - relfileOff - 1) relfileOff
      (btreePostingTidTags postoffset (BTreeTupleGetNPosting itup)) exitCode
  else
    attrAreaFinish schema haveargreltuple schema.length tupdata t_bits datalen
      relfileOff [] exitCode

/-! ## Whole index tuples (`EmitXmlIndexTuple`) -/

/-- How `EmitXmlIndexTuple` rendered the tuple's contents area. -/
inductive TupleContentsOut where
  /-- no contents (the tuple is all header, e.g. all attributes NULL) -/
  | empty
  /-- the whole contents area went to `EmitXmlAttributesIndex` -/
  | plain (r : IndexAttrsResult)
  /-- GIN entry-leaf posting-list split: key area via
  `EmitXmlAttributesIndex`, then one `"posting list"` tag -/
  | ginPosting (keyArea : IndexAttrsResult) (postingTag : TagM)
deriving DecidableEq, Repr

/-- Result of `EmitXmlIndexTuple`: the `t_tid`/`t_info`/NULL-bitmap header
tags, the contents rendering, and the final sticky error flag. -/
structure IndexTupleResult where
  headTags : List TagM
  contents : TupleContentsOut
  exitCode : Nat
deriving DecidableEq, Repr

/-- `EmitXmlIndexTuple(page, blkno, offset, tuple, relfileOff, itemSize, dead)`.

`itemSizeArg < 0` means the SP-GiST caller passed no line-pointer length and
`IndexTupleSize()` is trusted outright; otherwise a mismatch with
`IndexTupleSize()` is reported and the size clamped
(`Max(sizeof(IndexTupleData), Min(itemSize, IndexTupleSize))`).  The `t_tid`
tags use the GIN posting-list field names on a GIN entry-leaf tuple that is
not a posting-tree pointer; the contents area is split into key + posting
list exactly when the page is a GIN entry leaf, the tuple does not point to a
posting tree, and its posting count is non-zero (conditions 1-4 of the
source comment, via `!GinPageIsLeaf`). -/
def EmitXmlIndexTuple (specialType : SpecialSection) (schema : List SchemaAtt)
    (p : PageIn) (itup : Nat → Nat) (relfileOff : Nat) (itemSizeArg : Int)
    (dead : Bool) (exitCode : Nat) : IndexTupleResult :=
  let origOff := relfileOff
  let e0 :=
    if itemSizeArg < 0 then exitCode
    else if itemSizeArg ≠ (IndexTupleSize itup : Int) then 1
    else exitCode
  let itemSize : Int :=
    if itemSizeArg < 0 then (IndexTupleSize itup : Int)
    else if itemSizeArg ≠ (IndexTupleSize itup : Int) then
      max 8 (min itemSizeArg (IndexTupleSize itup : Int))
    else itemSizeArg
  let tidTags : List TagM :=
    if specialType ≠ .gin ∨ GinPageIsLeaf p = false ∨ GinIsPostingTree itup then
      [{ name := "t_tid->bi_hi", lo := origOff, hi := origOff + 1 },
       { name := "t_tid->bi_lo", lo := origOff + 2, hi := origOff + 3 },
       { name :=
           if specialType = .gin ∧ GinIsPostingTree itup then
             "t_tid->offsetNumber/GinIsPostingTree()"
           else if specialType = .btree ∧ BTreeTupleIsPivot itup then
             "t_tid->offsetNumber/BTreeTupleGetNAtts()"
           else if specialType = .btree ∧ BTreeTupleIsPosting itup then
             "t_tid->offsetNumber/BTreeTupleGetNPosting()"
           else "t_tid->offsetNumber",
         lo := origOff + 4, hi := origOff + 5 }]
    else
      [{ name := "t_tid->bi_hi/GinItupIsCompressed()", lo := origOff, hi := origOff + 1 },
       { name := "t_tid->bi_lo/GinGetPostingOffset()", lo := origOff + 2, hi := origOff + 3 },
       { name := "t_tid->offsetNumber/GinGetNPosting()", lo := origOff + 4, hi := origOff + 5 }]
  let infoTag : TagM := { name := "t_info", lo := origOff + 6, hi := origOff + 7 }
  let dataOff := IndexInfoFindDataOffset (itupTInfo itup)
  let bitmapTags : List TagM :=
    if IndexTupleHasNulls itup ∧ specialType ≠ .spgist then
      [{ name := "IndexAttributeBitMapData array", lo := origOff + 8,
         hi := origOff + dataOff - 1 }]
    else []
  let headTags := tidTags ++ [infoTag] ++ bitmapTags
  let contentsOff := origOff + dataOff
  if (contentsOff : Int) < origOff + itemSize then
    if specialType ≠ .gin ∨ GinPageIsLeaf p = false ∨ GinIsPostingTree itup ∨
        GinGetNPosting itup = 0 then
      { headTags := headTags,
        contents := .plain (EmitXmlAttributesIndex specialType schema
          contentsOff itup origOff itemSize e0),
        exitCode := (EmitXmlAttributesIndex specialType schema contentsOff itup
          origOff itemSize e0).exitCode }
    else
      let keyArea := EmitXmlAttributesIndex specialType schema contentsOff itup
        origOff (GinGetPostingOffset itup) e0
      let postingTag : TagM :=
        { name := "posting list",
          lo := ((origOff : Int) + itemSize - (itemSize - GinGetPostingOffset itup)).toNat,
          hi := ((origOff : Int) + itemSize - 1).toNat }
      { headTags := headTags, contents := .ginPosting keyArea postingTag,
        exitCode := keyArea.exitCode }
  else
    { headTags := headTags, contents := .empty, exitCode := e0 }

/-! ## Claim-side predicates

These definitions follow the specification's words (not the source); the
theorems below compare the source-derived functions against them. -/

/-- The spec's line-pointer invariant, per slot (from spec §3 "LinePointer",
as amended: a zero-length dead pointer is tolerated): a violation is a
zero-length normal pointer, a non-zero-length redirect/unused pointer, or a
non-zero-length normal/dead pointer whose `offset + length` exceeds the block
size or the bytes actually read. -/
def lpViolation (p : PageIn) (lp : ItemIdM) : Prop :=
  (lp.lpFlags = LP_NORMAL ∧ lp.lpLen = 0) ∨
  ((lp.lpFlags = LP_REDIRECT ∨ lp.lpFlags = LP_UNUSED) ∧ lp.lpLen ≠ 0) ∨
  (lp.lpLen ≠ 0 ∧ (lp.lpFlags = LP_NORMAL ∨ lp.lpFlags = LP_DEAD) ∧
    (lp.lpOff + lp.lpLen > p.blockSize ∨ lp.lpOff + lp.lpLen > p.bytesToFormat))

instance (p : PageIn) (lp : ItemIdM) : Decidable (lpViolation p lp) := by
  unfold lpViolation; infer_instance

/-- The seven recognized (non-error, non-heap) page variants of claim C5. -/
def recognizedVariant (v : SpecialSection) : Prop :=
  v = .sequence ∨ v = .btree ∨ v = .hash ∨ v = .gist ∨ v = .gin ∨
    v = .spgist ∨ v = .brin

instance (v : SpecialSection) : Decidable (recognizedVariant v) := by
  unfold recognizedVariant; infer_instance

/-- Each recognized variant's `MAXALIGN`ed opaque-struct size, as the
classifier computes it. -/
def alignedSpecialSize (v : SpecialSection) : Nat :=
  match v with
  | .sequence => MAXALIGN sizeofUint32
  | .btree => MAXALIGN sizeofBTPageOpaqueData
  | .hash => MAXALIGN sizeofHashPageOpaqueData
  | .gist => MAXALIGN sizeofGISTPageOpaqueData
  | .gin => MAXALIGN sizeofGinPageOpaqueData
  | .spgist => MAXALIGN sizeofSpGistPageOpaqueData
  | .brin => MAXALIGN sizeofBrinSpecialSpace
  | _ => 0

/-- The claim's "trailer carries V's correct magic value or trailing page-id
tag bytes", formalized per variant from the source's constants:

* sequence — the magic `uint32` at the start of the trailer;
* btree — the trailing `btpo_cycleid` is in the valid cycle-id range
  (`<= MAX_BT_CYCLE_ID`);
* hash / gist / spgist — the trailing page-id word; for SP-GiST also that the
  `flags` word uses only the four defined flag bits (`SPGIST_META |
  SPGIST_DELETED | SPGIST_LEAF | SPGIST_NULLS` = 0xF), as any correctly
  written SP-GiST trailer does;
* brin — the trailing page-type word is one of the three BRIN page types, and
  the two leading padding words are zero (as `PageInit` leaves them);
* gin — GIN has no magic or page-id bytes at all; a correct trailer merely
  has a `flags` word using only the eight defined `GIN_*` flag bits
  (<= 0xFF).  Its `rightlink` may be any block number. -/
def specCorrectTrailer (v : SpecialSection) (p : PageIn) : Prop :=
  match v with
  | .sequence => read32 p.buf (pdSpecial p.buf) = SEQUENCE_MAGIC
  | .btree => read16 p.buf (p.blockSize - 2) ≤ MAX_BT_CYCLE_ID
  | .hash => read16 p.buf (p.blockSize - 2) = HASHO_PAGE_ID
  | .gist => read16 p.buf (p.blockSize - 2) = GIST_PAGE_ID
  | .spgist => read16 p.buf (p.blockSize - 2) = SPGIST_PAGE_ID ∧ spgistFlags p ≤ 15
  | .brin =>
      (BrinPageType p = BRIN_PAGETYPE_META ∨ BrinPageType p = BRIN_PAGETYPE_REVMAP ∨
        BrinPageType p = BRIN_PAGETYPE_REGULAR) ∧
      read32 p.buf (pdSpecial p.buf) = 0
  | .gin => ginFlags p ≤ 255
  | _ => False

instance (v : SpecialSection) (p : PageIn) : Decidable (specCorrectTrailer v p) := by
  unfold specCorrectTrailer
  cases v <;> infer_instance

/-- Hypothesis bundle for the cross-page scan theorem: an initialized,
fully-covered page whose header passes every sanity check, with an empty
item-id array (so the per-tuple emitters, modeled separately, contribute
nothing), classified to a recognized variant or to `SPEC_SECT_NONE`. -/
def cleanScanPage (p : PageIn) : Prop :=
  ¬ PageIsNew p.buf ∧
  sizeOfPageHeaderData + PageGetMaxOffsetNumber p.buf * sizeOfItemIdData ≤ p.bytesToFormat ∧
  ¬ headerInvalid p ∧
  PageGetMaxOffsetNumber p.buf = 0 ∧
  GetSpecialSectionType p ≠ .errUnknown ∧
  GetSpecialSectionType p ≠ .errBoundary

instance (p : PageIn) : Decidable (cleanScanPage p) := by
  unfold cleanScanPage; infer_instance

/-! ## Concrete example inputs (for counterexamples and witnesses)

All pages use `blockSize` 8192 and layout version 4.  `mkBuf` builds a sparse
byte function; unlisted offsets read 0. -/

/-- Build a byte function from an association list (default byte 0). -/
def mkBuf (l : List (Nat × Nat)) : Nat → Nat := fun o => (l.lookup o).getD 0

/-- A page of which only 10 bytes were read. -/
def shortReadPage : PageIn :=
  { buf := mkBuf [], blockSize := 8192, bytesToFormat := 10 }

/-- A page whose LSN halves are `xlogid` = 1, `xrecoff` = 0x10. -/
def lsnPage : PageIn :=
  { buf := mkBuf [(0, 1), (4, 0x10), (12, 24), (14, 100), (16, 0xF0), (17, 0x1F),
                  (18, 4), (19, 0x20)],
    blockSize := 8192, bytesToFormat := 8192 }

/-- A correct GIN entry-tree leaf page whose opaque trailer has
`rightlink` = 0x1717 (block 5911 as right sibling), `maxoff` = 0 and
`flags` = `GIN_LEAF`: `pd_special` = 8184, trailer bytes
17 17 00 00 | 00 00 | 02 00. -/
def ginCollisionPage : PageIn :=
  { buf := mkBuf [(12, 24), (14, 100), (16, 0xF8), (17, 0x1F), (18, 4), (19, 0x20),
                  (8184, 0x17), (8185, 0x17), (8190, 2)],
    blockSize := 8192, bytesToFormat := 8192 }

/-- An initialized page that classifies to `SPEC_SECT_ERROR_UNKNOWN`
(`pd_special` = 8190, trailer size 2), with a valid header otherwise. -/
def unknownTrailerPage : PageIn :=
  { buf := mkBuf [(12, 24), (14, 100), (16, 0xFE), (17, 0x1F), (18, 4), (19, 0x20)],
    blockSize := 8192, bytesToFormat := 8192 }

/-- A btree page: `pd_special` = 8176 (trailer size 16), trailing
`btpo_cycleid` = 0x10, valid header, no items. -/
def btreePage : PageIn :=
  { buf := mkBuf [(12, 24), (14, 100), (16, 0xF0), (17, 0x1F), (18, 4), (19, 0x20),
                  (8190, 0x10)],
    blockSize := 8192, bytesToFormat := 8192 }

/-- An uninitialized page (`pd_upper` = 0). -/
def newPage : PageIn :=
  { buf := mkBuf [], blockSize := 8192, bytesToFormat := 8192 }

/-- A heap page with exactly one line pointer, which is `LP_DEAD` with
`lp_len` = 0 (item-id word 0x00018000: `lp_off` = 0, `lp_flags` = `LP_DEAD`,
`lp_len` = 0). -/
def deadZeroSlotPage : PageIn :=
  { buf := mkBuf [(12, 28), (14, 100), (16, 0x00), (17, 0x20), (18, 4), (19, 0x20),
                  (24, 0x00), (25, 0x80), (26, 0x01), (27, 0x00)],
    blockSize := 8192, bytesToFormat := 8192 }

/-- A GIN entry-tree leaf page (`pd_special` = 8184, `flags` = `GIN_LEAF`). -/
def ginLeafPage : PageIn :=
  { buf := mkBuf [(12, 24), (14, 100), (16, 0xF8), (17, 0x1F), (18, 4), (19, 0x20),
                  (8190, 2)],
    blockSize := 8192, bytesToFormat := 8192 }

/-- A GIN entry-tree leaf `IndexTuple` carrying a posting list: `t_tid` =
(bi_hi 0, bi_lo 16, offsetNumber 2) — posting offset 16, posting count 2, not
a posting-tree pointer — `t_info` = 28 (size 28, no NULLs). -/
def ginPostingTuple : Nat → Nat := mkBuf [(2, 16), (4, 2), (6, 28)]

/-- A ten-column all-`int4` schema (`-D` style). -/
def schemaTen : List SchemaAtt :=
  (List.range 10).map
    (fun i => { attlen := 4, attname := s!"col{i}", attcolor := "", attalign := 'i' })

/-- A single-column `int4` schema. -/
def schemaOne : List SchemaAtt :=
  [{ attlen := 4, attname := "key", attcolor := "", attalign := 'i' }]

/-- A NULL bitmap for ten columns marking exactly column 3 NULL
(bytes 0xF7 0xFF: bit 3 clear, all other bits set). -/
def bitsNull3 : Nat → Nat := mkBuf [(0, 0xF7), (1, 0xFF)]

/-! # Theorems -/

/-- C4 (counterexample): a page of which only 10 bytes were read — fewer than
the 24-byte generic header — classifies to the unknown-error variant, not to
the boundary ("trailer doesn't fit") variant the claim requires. -/
theorem claimC4_counterexample :
    shortReadPage.bytesToFormat < sizeOfPageHeaderData ∧
    GetSpecialSectionType shortReadPage = SpecialSection.errUnknown ∧
    GetSpecialSectionType shortReadPage ≠ SpecialSection.errBoundary := by
  decide

/-- C4 (amended): for every input page, if the number of bytes actually read
does not exceed the fixed generic page header size, the page classifier
returns the "unknown" error variant; the boundary ("trailer doesn't fit")
variant is reserved for pages whose header is available but whose `pd_special`
is zero, beyond the block size, or beyond the bytes read. -/
theorem claimC4_theorem (p : PageIn)
    (h : p.bytesToFormat ≤ sizeOfPageHeaderData) :
    GetSpecialSectionType p = SpecialSection.errUnknown := by
  unfold GetSpecialSectionType
  rw [if_pos h]

/-- C4 (witness): the amended theorem at the concrete 10-byte read. -/
theorem claimC4_witness :
    shortReadPage.bytesToFormat ≤ sizeOfPageHeaderData ∧
    GetSpecialSectionType shortReadPage = SpecialSection.errUnknown :=
  ⟨by decide, claimC4_theorem shortReadPage (by decide)⟩

/-- C9: a page whose buffer reads as uninitialized (`PageIsNew`, i.e.
`pd_upper = 0`) makes `EmitXmlPage` return immediately: the driver state
(first-seen variant and sticky error flag) is unchanged and no actions — in
particular no tags and no errors — are produced, so the page is also excluded
from the cross-page variant-consistency check. -/
theorem claimC9_theorem (opts : Opts) (ck blkno segno : Nat) (p : PageIn)
    (ds : DriverState) (h : PageIsNew p.buf) :
    EmitXmlPage opts ck blkno segno p ds = { ds := ds, actions := [] } := by
  unfold EmitXmlPage
  rw [if_pos h]

/-- C9 (witness): the theorem at the concrete all-zero page. -/
theorem claimC9_witness :
    PageIsNew newPage.buf ∧
    EmitXmlPage noOpts 0 1 1 newPage initialDriverState
      = { ds := initialDriverState, actions := [] } :=
  ⟨by decide, claimC9_theorem noOpts 0 1 1 newPage initialDriverState (by decide)⟩

/-- C1: for every page whose full header is available and whose stored LSN
halves are `xlogid` (high) = 0x00000001 and `xrecoff` (low) = 0x00000010, the
decoded LSN is `(1 <<< 32) ||| 0x10`, the page-header tag's LSN text is the
pair (1, 0x10) (the `%X/%08X` printf arguments), and the decoded LSN differs
from the little-endian reinterpretation of the same 8 raw bytes. -/
theorem claimC1_theorem (p : PageIn) (opts : Opts) (ck e : Nat)
    (hfit : sizeOfPageHeaderData ≤ p.bytesToFormat)
    (hhi : pdLsnXlogid p.buf = 1) (hlo : pdLsnXrecoff p.buf = 0x10) :
    GetPageLsn p.buf = (1 <<< 32) ||| 0x10 ∧
    (EmitXmlPageHeader p opts ck e).lsnText = Option.some (1, 0x10) ∧
    GetPageLsn p.buf ≠ read64LE p.buf 0 := by
  have hlsn : GetPageLsn p.buf = 4294967312 := by
    unfold GetPageLsn
    rw [hhi, hlo]
  have hne : ¬ p.bytesToFormat < sizeOfPageHeaderData := by omega
  refine ⟨by rw [hlsn]; decide, ?_, ?_⟩
  · unfold EmitXmlPageHeader
    rw [if_neg hne]
    simp only [hlsn]
  · unfold read64LE
    have h0 : read32 p.buf 0 = 1 := hhi
    have h4 : read32 p.buf 4 = 0x10 := hlo
    rw [hlsn, h0, h4]
    omega

/-- C1 (witness): at the concrete page storing halves 1 and 0x10. -/
theorem claimC1_witness :
    GetPageLsn lsnPage.buf = (1 <<< 32) ||| 0x10 ∧
    (EmitXmlPageHeader lsnPage noOpts 0 0).lsnText = Option.some (1, 0x10) ∧
    GetPageLsn lsnPage.buf ≠ read64LE lsnPage.buf 0 :=
  claimC1_theorem lsnPage noOpts 0 0 (by decide) (by decide) (by decide)

/-- C10: once the sticky error flag is nonzero when an index tuple's
attribute area is reached — or when the page is a GIN page and the supplied
schema has more than one column — per-column schema decoding is suppressed:
the attribute area is rendered as the single opaque `"contents"` tag, even
though a `-D` schema was supplied. -/
theorem claimC10_theorem (specialType : SpecialSection) (schema : List SchemaAtt)
    (relfileOff : Nat) (itup : Nat → Nat) (tupHeaderOff : Nat) (itemSize : Int)
    (e : Nat) (hschema : schema.length ≠ 0)
    (h : e ≠ 0 ∨ (specialType = .gin ∧ schema.length > 1)) :
    ∃ t : TagM, t.name = "contents" ∧
      (EmitXmlAttributesIndex specialType schema relfileOff itup tupHeaderOff
        itemSize e).area = AttrAreaOut.contents t := by
  have hcond : (schema.length = 0 ∨ e ≠ 0 ∨
      (specialType = .gin ∧ schema.length > 1)) := by tauto
  have hb : decide (schema.length = 0 ∨ e ≠ 0 ∨
      (specialType = .gin ∧ schema.length > 1)) = true := decide_eq_true hcond
  unfold EmitXmlAttributesIndex attrAreaFinish
  simp only [hb, Bool.not_true, Bool.false_and, Bool.false_eq_true, if_false]
  split_ifs <;> exact ⟨_, rfl, rfl⟩

/-- C10 (witness): at a concrete GIN tuple with a supplied single-column
schema and the sticky flag already set. -/
theorem claimC10_witness :
    schemaOne.length ≠ 0 ∧
    ∃ t : TagM, t.name = "contents" ∧
      (EmitXmlAttributesIndex .gin schemaOne 1000 ginPostingTuple 1000 28 1).area
        = AttrAreaOut.contents t :=
  ⟨by decide,
   claimC10_theorem .gin schemaOne 1000 ginPostingTuple 1000 28 1 (by decide)
     (Or.inl (by decide))⟩

/-- C6: for every page whose header (including the item-id array) is fully
read, `EmitXmlPageHeader` emits all eight header field tags and returns
`rc = 0` (decoding of the page continues) unconditionally; any violation of
the eight bound/version checks (`headerInvalid`) sets the sticky error flag
to 1, and with checksum verification off and no violation the flag is left
untouched — so the flag is raised exactly by the checks the claim lists. -/
theorem claimC6_theorem (p : PageIn) (opts : Opts) (ck e : Nat)
    (hfit : sizeOfPageHeaderData +
      PageGetMaxOffsetNumber p.buf * sizeOfItemIdData ≤ p.bytesToFormat) :
    (EmitXmlPageHeader p opts ck e).tags = headerTagNames ∧
    (EmitXmlPageHeader p opts ck e).rc = 0 ∧
    (headerInvalid p → (EmitXmlPageHeader p opts ck e).exitCode = 1) ∧
    (¬ headerInvalid p → opts.checksums = false → opts.zerosums = false →
      (EmitXmlPageHeader p opts ck e).exitCode = e) := by
  simp only [sizeOfPageHeaderData, sizeOfItemIdData] at hfit
  have hlt : ¬ p.bytesToFormat < sizeOfPageHeaderData := by
    simp only [sizeOfPageHeaderData]
    omega
  have hrc : ¬ (0 < PageGetMaxOffsetNumber p.buf ∧
      p.bytesToFormat < sizeOfPageHeaderData +
        PageGetMaxOffsetNumber p.buf * sizeOfItemIdData) := by
    simp only [sizeOfPageHeaderData, sizeOfItemIdData]
    omega
  unfold EmitXmlPageHeader
  rw [if_neg hlt]
  simp only [if_neg hrc]
  refine ⟨trivial, ?_, ?_, ?_⟩
  · simp [EOF_ENCOUNTERED]
  · intro hinv
    simp only [if_pos hinv]
    split_ifs <;> simp [EOF_ENCOUNTERED]
  · intro hinv hchk hz
    simp only [if_neg hinv, hchk, hz]
    simp [EOF_ENCOUNTERED]

/-- C6 (witness): at a concrete valid btree page (all checks pass, flag
untouched) — the hypotheses of the theorem discharged at `btreePage`. -/
theorem claimC6_witness :
    (EmitXmlPageHeader btreePage noOpts 0 0).tags = headerTagNames ∧
    (EmitXmlPageHeader btreePage noOpts 0 0).rc = 0 ∧
    (headerInvalid btreePage → (EmitXmlPageHeader btreePage noOpts 0 0).exitCode = 1) ∧
    (¬ headerInvalid btreePage → noOpts.checksums = false → noOpts.zerosums = false →
      (EmitXmlPageHeader btreePage noOpts 0 0).exitCode = 0) :=
  claimC6_theorem btreePage noOpts 0 0 (by decide)

/-- The outcome list of the slot loop is the per-slot outcome of each index. -/
theorem tuplesLoop_snd (p : PageIn) (fmt : FormatChoice) (ks : List Nat) (e : Nat) :
    (tuplesLoop p fmt ks e).2 =
      ks.map (fun k => slotOutcome p fmt (slotAt p.buf k)) := by
  induction ks generalizing e with
  | nil => rfl
  | cons k ks ih => simp only [tuplesLoop, List.map_cons, ih]

/-- The slot loop's final error flag: 1 as soon as any slot errs, the incoming
flag otherwise. -/
theorem tuplesLoop_fst (p : PageIn) (fmt : FormatChoice) (ks : List Nat) (e : Nat) :
    (tuplesLoop p fmt ks e).1 =
      if ks.any (fun k => (slotOutcome p fmt (slotAt p.buf k)).isError) then 1
      else e := by
  induction ks generalizing e with
  | nil => rfl
  | cons k ks ih =>
      simp only [tuplesLoop, List.any_cons, ih]
      by_cases h : (slotOutcome p fmt (slotAt p.buf k)).isError = true
      · simp [h]
      · simp [h]

/-- A decoded `lp_flags` is a 2-bit value. -/
theorem slotAt_lpFlags_lt (buf : Nat → Nat) (k : Nat) :
    (slotAt buf k).lpFlags < 4 := by
  unfold slotAt
  exact Nat.mod_lt _ (by norm_num)

/-- A slot's loop outcome is an error exactly on the (amended) line-pointer
invariant violations. -/
theorem slotOutcome_isError_iff (p : PageIn) (fmt : FormatChoice) (lp : ItemIdM)
    (hflags : lp.lpFlags < 4) :
    ((slotOutcome p fmt lp).isError = true ↔ lpViolation p lp) := by
  unfold slotOutcome lpViolation LP_NORMAL LP_REDIRECT LP_UNUSED LP_DEAD
  split_ifs with h1 h2 h3 h4 <;>
    simp only [SlotOutcome.isError] <;>
    constructor <;> intro h <;> first | omega | tauto

/-- A slot is decoded exactly when it is a non-zero-length slot with no
violation. -/
theorem slotOutcome_decoded_iff (p : PageIn) (fmt : FormatChoice) (lp : ItemIdM)
    (hflags : lp.lpFlags < 4) :
    (slotOutcome p fmt lp = SlotOutcome.decoded fmt ↔
      (¬ lpViolation p lp ∧ lp.lpLen ≠ 0)) := by
  unfold slotOutcome lpViolation LP_NORMAL LP_REDIRECT LP_UNUSED LP_DEAD
  split_ifs with h1 h2 h3 h4 <;>
    constructor <;> intro h <;> first | omega | tauto

/-- C7 (counterexample): a page whose only line pointer is `LP_DEAD` with
`lp_len = 0` — violating the claimed invariant that normal *or dead* pointers
have non-zero length — is skipped silently: no error outcome, sticky flag
left at 0, contradicting "every violation of this invariant is reported". -/
theorem claimC7_counterexample :
    (slotAt deadZeroSlotPage.buf 0).lpFlags = LP_DEAD ∧
    (slotAt deadZeroSlotPage.buf 0).lpLen = 0 ∧
    EmitXmlTuples SpecialSection.none deadZeroSlotPage 0
      = (0, [SlotOutcome.skippedZero]) := by
  decide

/-- C7 (amended): for every slot processed by the tuple pass (under a
recognized format choice and a sane `maxOffset`): the scan always covers all
`maxOffset` slots; a slot's decode errs exactly on a violation of the
(amended) line-pointer invariant — zero-length normal, non-zero-length
redirect/unused, or non-zero-length normal/dead not fitting in the block or
the bytes read; a zero-length *dead* (or redirect/unused) pointer is skipped
silently; a slot's tuple decoder runs exactly when the slot has non-zero
length and no violation; and the sticky flag ends nonzero iff it started
nonzero or some slot violates. -/
theorem claimC7_theorem (specialType : SpecialSection) (p : PageIn)
    (fmt : FormatChoice) (e : Nat)
    (hfmt : formatAsOf specialType p = Option.some fmt)
    (hmax : PageGetMaxOffsetNumber p.buf ≤ p.blockSize) :
    (EmitXmlTuples specialType p e).2.length = PageGetMaxOffsetNumber p.buf ∧
    (∀ k, k < PageGetMaxOffsetNumber p.buf →
      (((EmitXmlTuples specialType p e).2.getD k .skippedZero).isError = true ↔
        lpViolation p (slotAt p.buf k)) ∧
      ((EmitXmlTuples specialType p e).2.getD k .skippedZero
          = SlotOutcome.decoded fmt ↔
        (¬ lpViolation p (slotAt p.buf k) ∧ (slotAt p.buf k).lpLen ≠ 0))) ∧
    ((EmitXmlTuples specialType p e).1 ≠ 0 ↔
      e ≠ 0 ∨ ∃ k < PageGetMaxOffsetNumber p.buf, lpViolation p (slotAt p.buf k)) := by
  by_cases hz : PageGetMaxOffsetNumber p.buf = 0
  · unfold EmitXmlTuples
    rw [if_pos hz, hz]
    refine ⟨rfl, by omega, ?_⟩
    simp
  · have hdef : EmitXmlTuples specialType p e =
        tuplesLoop p fmt (List.range (PageGetMaxOffsetNumber p.buf)) e := by
      unfold EmitXmlTuples
      rw [if_neg hz, if_neg (by omega), hfmt]
    have hget : ∀ k, k < PageGetMaxOffsetNumber p.buf →
        (EmitXmlTuples specialType p e).2.getD k .skippedZero
          = slotOutcome p fmt (slotAt p.buf k) := by
      intro k hk
      rw [hdef, tuplesLoop_snd]
      rw [List.getD_eq_getElem?_getD, List.getElem?_map, List.getElem?_range hk]
      rfl
    refine ⟨?_, ?_, ?_⟩
    · rw [hdef, tuplesLoop_snd]
      simp
    · intro k hk
      rw [hget k hk]
      exact ⟨slotOutcome_isError_iff p fmt _ (slotAt_lpFlags_lt p.buf k),
        slotOutcome_decoded_iff p fmt _ (slotAt_lpFlags_lt p.buf k)⟩
    · rw [hdef, tuplesLoop_fst]
      by_cases hany : (List.range (PageGetMaxOffsetNumber p.buf)).any
          (fun k => (slotOutcome p fmt (slotAt p.buf k)).isError) = true
      · rw [if_pos hany]
        simp only [List.any_eq_true, List.mem_range] at hany
        obtain ⟨k, hk, herr⟩ := hany
        have := (slotOutcome_isError_iff p fmt _ (slotAt_lpFlags_lt p.buf k)).mp herr
        constructor
        · intro _
          exact Or.inr ⟨k, hk, this⟩
        · intro _
          omega
      · rw [if_neg hany]
        simp only [List.any_eq_true, List.mem_range, not_exists] at hany
        push_neg at hany
        constructor
        · intro he
          exact Or.inl he
        · intro h
          rcases h with he | ⟨k, hk, hv⟩
          · exact he
          · exact absurd ((slotOutcome_isError_iff p fmt _
              (slotAt_lpFlags_lt p.buf k)).mpr hv) (hany k hk)

/-- C7 (witness): the amended theorem at the concrete one-slot page. -/
theorem claimC7_witness :
    formatAsOf SpecialSection.none deadZeroSlotPage = Option.some FormatChoice.heap ∧
    ((EmitXmlTuples SpecialSection.none deadZeroSlotPage 0).1 ≠ 0 ↔
      (0 : Nat) ≠ 0 ∨ ∃ k < PageGetMaxOffsetNumber deadZeroSlotPage.buf,
        lpViolation deadZeroSlotPage (slotAt deadZeroSlotPage.buf k)) :=
  ⟨by decide,
   (claimC7_theorem SpecialSection.none deadZeroSlotPage FormatChoice.heap 0
     (by decide) (by decide)).2.2⟩

/-- C2 (counterexample): a GIN entry-leaf tuple with posting count 2 (12
posting bytes at [1016, 1027]).  The trailing bytes receive exactly ONE tag,
labeled "posting list", covering the whole area — not the claimed decoding
into N (= 2) row-pointer sub-tags (compare the nbtree posting path, which
emits three 2-byte sub-tags per row pointer).  The key area is decoded
separately and no plain-attribute decoding touches the posting bytes. -/
theorem claimC2_counterexample :
    GinPageIsLeaf ginLeafPage = true ∧
    ¬ GinIsPostingTree ginPostingTuple ∧
    GinGetNPosting ginPostingTuple = 2 ∧
    (EmitXmlIndexTuple .gin schemaOne ginLeafPage ginPostingTuple 1000 28
        false 0).contents
      = TupleContentsOut.ginPosting
          { tidTags := [],
            area := AttrAreaOut.perColumn
              [{ col := 0, kind := .value, name := "key", lo := 1008, hi := 1011 }]
              false,
            exitCode := 0 }
          { name := "posting list", lo := 1016, hi := 1027 } := by
  decide

/-- C2 (amended): for every `IndexTuple` on a GIN entry-tree leaf page that
does not point to a posting tree and whose repurposed posting-list item count
is non-zero, the tuple's contents are decoded as key area plus posting list:
the key prefix goes to `EmitXmlAttributesIndex` (bounded by the posting
offset) and the trailing posting-list bytes receive the single
`"posting list"` tag covering `[postingOffset, itemSize)` of the tuple — and
are never decoded as plain schema attributes, even when a `-D` schema was
supplied. -/
theorem claimC2_theorem (schema : List SchemaAtt) (p : PageIn)
    (itup : Nat → Nat) (relfileOff : Nat) (e : Nat)
    (hleaf : GinPageIsLeaf p = true)
    (hnpt : ¬ GinIsPostingTree itup)
    (hnz : GinGetNPosting itup ≠ 0)
    (hsz : IndexInfoFindDataOffset (itupTInfo itup) < IndexTupleSize itup) :
    (EmitXmlIndexTuple .gin schema p itup relfileOff (IndexTupleSize itup)
        false e).contents
      = TupleContentsOut.ginPosting
          (EmitXmlAttributesIndex .gin schema
            (relfileOff + IndexInfoFindDataOffset (itupTInfo itup)) itup
            relfileOff (GinGetPostingOffset itup) e)
          { name := "posting list", lo := relfileOff + GinGetPostingOffset itup,
            hi := relfileOff + IndexTupleSize itup - 1 } ∧
    (∀ ia, (EmitXmlIndexTuple .gin schema p itup relfileOff
        (IndexTupleSize itup) false e).contents ≠ TupleContentsOut.plain ia) := by
  have h1 : ¬ ((IndexTupleSize itup : Int) < 0) := by omega
  have h2 : ¬ ((IndexTupleSize itup : Int) ≠ (IndexTupleSize itup : Int)) := by
    simp
  have h3 : ((relfileOff + IndexInfoFindDataOffset (itupTInfo itup) : Nat) : Int)
      < (relfileOff : Int) + (IndexTupleSize itup : Int) := by
    push_cast
    omega
  have h4 : ¬ (SpecialSection.gin ≠ SpecialSection.gin ∨ GinPageIsLeaf p = false ∨
      GinIsPostingTree itup ∨ GinGetNPosting itup = 0) := by
    simp [hleaf, hnpt, hnz]
  have hlo : ((relfileOff : Int) + (IndexTupleSize itup : Int) -
      ((IndexTupleSize itup : Int) - (GinGetPostingOffset itup : Nat))).toNat
      = relfileOff + GinGetPostingOffset itup := by
    omega
  have hhi : ((relfileOff : Int) + (IndexTupleSize itup : Int) - 1).toNat
      = relfileOff + IndexTupleSize itup - 1 := by
    omega
  unfold EmitXmlIndexTuple
  simp only [if_neg h1, if_neg h2, if_pos h3, if_neg h4, hlo, hhi]
  exact ⟨trivial, by simp⟩

/-- C2 (witness): the amended theorem at the concrete leaf page and tuple. -/
theorem claimC2_witness :
    GinPageIsLeaf ginLeafPage = true ∧
    (EmitXmlIndexTuple .gin schemaOne ginLeafPage ginPostingTuple 1000
        (IndexTupleSize ginPostingTuple) false 0).contents
      = TupleContentsOut.ginPosting
          (EmitXmlAttributesIndex .gin schemaOne
            (1000 + IndexInfoFindDataOffset (itupTInfo ginPostingTuple))
            ginPostingTuple 1000 (GinGetPostingOffset ginPostingTuple) 0)
          { name := "posting list",
            lo := 1000 + GinGetPostingOffset ginPostingTuple,
            hi := 1000 + IndexTupleSize ginPostingTuple - 1 } :=
  ⟨by decide,
   (claimC2_theorem schemaOne ginLeafPage ginPostingTuple 1000 0 (by decide)
     (by decide) (by decide) (by decide)).1⟩

/-- When the attribute walk does not abort, the columns of its value tags are
exactly the non-NULL column numbers it visited, in order. -/
theorem emitAttrsLoop_value_cols (tupdata : Nat → Nat)
    (t_bits : Option (Nat → Nat)) (datalen : Int) (relfileOff : Nat)
    (atts : List SchemaAtt) (i off e : Nat)
    (hab : (emitAttrsLoop tupdata t_bits datalen relfileOff atts i off e).2.2 = false) :
    (((emitAttrsLoop tupdata t_bits datalen relfileOff atts i off e).1.filter
        (fun t => t.kind == TagKind.value)).map (fun t => t.col))
      = (List.range' i atts.length).filter (fun j => ! decide (isNullAt j t_bits)) := by
  induction atts generalizing i off e with
  | nil => rfl
  | cons att rest ih =>
      simp only [emitAttrsLoop, List.length_cons, List.range'_succ] at hab ⊢
      by_cases hnull : isNullAt i t_bits
      · rw [if_pos hnull] at hab ⊢
        rw [List.filter_cons_of_neg (by simp [hnull])]
        exact ih _ _ _ hab
      · rw [if_neg hnull] at hab ⊢
        rw [List.filter_cons_of_pos (by simp [hnull])]
        split_ifs at hab ⊢ <;>
          first
            | (simp at hab
               done)
            | (dsimp only
               simp only [List.filter_append, List.filter_cons, List.map_append,
                 List.map_cons]
               simp only [show (TagKind.header == TagKind.value) = false from rfl,
                 show (TagKind.value == TagKind.value) = true from rfl]
               simp only [Bool.false_eq_true, if_false, if_true, List.nil_append,
                 List.map_cons]
               rw [ih _ _ _ hab]
               all_goals simp)

/-- The walk's entire output is independent of the schema entry of a NULL
column (the walker `continue`s before reading any of its fields). -/
theorem emitAttrsLoop_null_entry (tupdata : Nat → Nat)
    (t_bits : Option (Nat → Nat)) (datalen : Int) (relfileOff : Nat)
    (a : List SchemaAtt) (x y : SchemaAtt) (b : List SchemaAtt) (i off e : Nat)
    (hnull : isNullAt (i + a.length) t_bits) :
    emitAttrsLoop tupdata t_bits datalen relfileOff (a ++ x :: b) i off e
      = emitAttrsLoop tupdata t_bits datalen relfileOff (a ++ y :: b) i off e := by
  induction a generalizing i off e with
  | nil =>
      simp only [List.length_nil, Nat.add_zero] at hnull
      simp only [List.nil_append, emitAttrsLoop, if_pos hnull]
  | cons h rest ih =>
      have hn' : isNullAt (i + 1 + rest.length) t_bits := by
        have he : i + 1 + rest.length = i + (h :: rest).length := by
          simp [List.length_cons]
          omega
        rw [he]
        exact hnull
      simp only [List.cons_append, emitAttrsLoop]
      split_ifs <;>
        (try simp only [List.append_eq]) <;>
        first
          | rfl
          | exact ih _ _ _ hn'
          | rw [ih _ _ _ hn']

/-- C3: for every row-store/index tuple decoded with a caller-supplied
10-column schema and a NULL bitmap marking exactly column 3 NULL: (a) if the
walk completes, it emits exactly 9 attribute (value) tags, for columns
0, 1, 2, 4..9, skipping column 3 entirely; (b) the whole output — in
particular every emitted byte offset, including those of columns 4 and later
— is identical whatever column 3's schema entry (declared length included)
is: the walk does not advance the data offset for a NULL attribute. -/
theorem claimC3_theorem (pre post : List SchemaAtt) (x y : SchemaAtt)
    (tupdata : Nat → Nat) (bits : Nat → Nat) (datalen : Int)
    (relfileOff e : Nat) (hpre : pre.length = 3) (hpost : post.length = 6)
    (hbits : ∀ j, j < 10 → (att_isnull j bits ↔ j = 3)) :
    ((EmitXmlAttributesData (pre ++ x :: post) 10 tupdata (Option.some bits)
        datalen relfileOff e).2.2 = false →
      (((EmitXmlAttributesData (pre ++ x :: post) 10 tupdata (Option.some bits)
          datalen relfileOff e).1.filter
            (fun t => t.kind == TagKind.value)).map (fun t => t.col))
        = [0, 1, 2, 4, 5, 6, 7, 8, 9]) ∧
    EmitXmlAttributesData (pre ++ x :: post) 10 tupdata (Option.some bits)
        datalen relfileOff e
      = EmitXmlAttributesData (pre ++ y :: post) 10 tupdata (Option.some bits)
          datalen relfileOff e := by
  have hlen : (pre ++ x :: post).length = 10 := by
    simp [hpre, hpost]
  have hlen' : (pre ++ y :: post).length = 10 := by
    simp [hpre, hpost]
  unfold EmitXmlAttributesData
  rw [List.take_of_length_le (le_of_eq hlen), List.take_of_length_le (le_of_eq hlen')]
  constructor
  · intro hab
    rw [emitAttrsLoop_value_cols _ _ _ _ _ _ _ _ hab, hlen]
    have hcongr : (List.range' 0 10).filter
        (fun j => ! decide (isNullAt j (Option.some bits)))
        = (List.range' 0 10).filter (fun j => ! decide (j = 3)) := by
      apply List.filter_congr
      intro j hj
      have hj10 : j < 10 := by
        rw [show List.range' 0 10 = [0, 1, 2, 3, 4, 5, 6, 7, 8, 9] from rfl] at hj
        simp at hj
        omega
      simp only [isNullAt]
      rw [decide_eq_decide.mpr (hbits j hj10)]
    rw [hcongr]
    decide
  · exact emitAttrsLoop_null_entry tupdata (Option.some bits) datalen relfileOff
      pre x y post 0 0 e
      (by
        simp only [isNullAt, Nat.zero_add, hpre]
        exact (hbits 3 (by norm_num)).mpr rfl)

/-- C3 (witness): at the ten-column `int4` schema with the concrete bitmap
0xF7 0xFF (column 3 NULL), varying column 3's entry between lengths 4 and
1234. -/
theorem claimC3_witness :
    ((EmitXmlAttributesData (schemaTen.take 3 ++
        ({ attlen := 4, attname := "col3", attcolor := "", attalign := 'i' } : SchemaAtt)
          :: schemaTen.drop 4) 10 (mkBuf []) (Option.some bitsNull3)
        40 1000 0).2.2 = false →
      (((EmitXmlAttributesData (schemaTen.take 3 ++
          ({ attlen := 4, attname := "col3", attcolor := "", attalign := 'i' } : SchemaAtt)
            :: schemaTen.drop 4) 10 (mkBuf []) (Option.some bitsNull3)
          40 1000 0).1.filter
            (fun t => t.kind == TagKind.value)).map (fun t => t.col))
        = [0, 1, 2, 4, 5, 6, 7, 8, 9]) ∧
    EmitXmlAttributesData (schemaTen.take 3 ++
        ({ attlen := 4, attname := "col3", attcolor := "", attalign := 'i' } : SchemaAtt)
          :: schemaTen.drop 4) 10 (mkBuf []) (Option.some bitsNull3) 40 1000 0
      = EmitXmlAttributesData (schemaTen.take 3 ++
          ({ attlen := 1234, attname := "col3", attcolor := "", attalign := 'i' } : SchemaAtt)
            :: schemaTen.drop 4) 10 (mkBuf []) (Option.some bitsNull3) 40 1000 0 :=
  claimC3_theorem (schemaTen.take 3) (schemaTen.drop 4)
    { attlen := 4, attname := "col3", attcolor := "", attalign := 'i' }
    { attlen := 1234, attname := "col3", attcolor := "", attalign := 'i' }
    (mkBuf []) bitsNull3 40 1000 0 (by decide) (by decide)
    (by decide)

/-- C5 (counterexample): a fully-read, perfectly correct GIN entry-leaf page
whose opaque trailer has `rightlink` = 0x1717 — a legitimate block number
that happens to equal the sequence magic — classifies as `sequence`, not
`gin`: the sequence-magic check runs first and GIN has no magic or page-id
bytes of its own to override it. -/
theorem claimC5_counterexample :
    ginCollisionPage.bytesToFormat = ginCollisionPage.blockSize ∧
    ginCollisionPage.blockSize - pdSpecial ginCollisionPage.buf
      = alignedSpecialSize SpecialSection.gin ∧
    specCorrectTrailer SpecialSection.gin ginCollisionPage ∧
    GetSpecialSectionType ginCollisionPage = SpecialSection.sequence ∧
    GetSpecialSectionType ginCollisionPage ≠ SpecialSection.gin := by
  decide

/-- C5 (amended): for every recognized page variant V, a fully-read page
whose special-trailer offset yields exactly V's aligned opaque-struct size
and whose trailer carries V's correct magic value or trailing page-id tag
bytes classifies back to exactly V — with the proviso that for GIN (which
has neither a magic nor a page id) the trailer's first four bytes
(`rightlink`) must additionally differ from the sequence magic. -/
theorem claimC5_theorem (v : SpecialSection) (p : PageIn)
    (hrec : recognizedVariant v)
    (hfull : p.bytesToFormat = p.blockSize)
    (hbig : sizeOfPageHeaderData < p.blockSize)
    (hsize : p.blockSize - pdSpecial p.buf = alignedSpecialSize v)
    (hcorrect : specCorrectTrailer v p)
    (hginProviso : v = .gin → read32 p.buf (pdSpecial p.buf) ≠ SEQUENCE_MAGIC) :
    GetSpecialSectionType p = v := by
  have m4 : MAXALIGN sizeofUint32 = 8 := by decide
  have mS : MAXALIGN sizeofSpGistPageOpaqueData = 8 := by decide
  have mB : MAXALIGN sizeofBrinSpecialSpace = 8 := by decide
  have mG : MAXALIGN sizeofGinPageOpaqueData = 8 := by decide
  have mT : MAXALIGN sizeofBTPageOpaqueData = 16 := by decide
  have mH : MAXALIGN sizeofHashPageOpaqueData = 16 := by decide
  have mI : MAXALIGN sizeofGISTPageOpaqueData = 16 := by decide
  have hb24 : (24 : Nat) < p.blockSize := by
    simpa [sizeOfPageHeaderData] using hbig
  have hr16lt : ∀ o, read16 p.buf o < 65536 := by
    intro o
    unfold read16 byteAt
    have h1 := Nat.mod_lt (p.buf o) (show 0 < 256 by norm_num)
    have h2 := Nat.mod_lt (p.buf (o + 1)) (show 0 < 256 by norm_num)
    omega
  have hnotle : ¬ p.bytesToFormat ≤ sizeOfPageHeaderData := by
    simp only [sizeOfPageHeaderData]
    omega
  rcases hrec with h | h | h | h | h | h | h <;> subst h
  · -- sequence
    simp only [alignedSpecialSize, m4] at hsize
    simp only [specCorrectTrailer] at hcorrect
    unfold GetSpecialSectionType
    rw [if_neg hnotle, if_neg (by omega), if_neg (by omega),
      if_pos (by rw [m4]; exact hsize), if_pos hfull, if_pos hcorrect]
  · -- btree
    simp only [alignedSpecialSize, mT] at hsize
    simp only [specCorrectTrailer] at hcorrect
    unfold GetSpecialSectionType
    rw [if_neg hnotle, if_neg (by omega), if_neg (by omega),
      if_neg (by rw [m4]; omega),
      if_neg (by rw [mS]; rintro ⟨hc, -⟩; omega),
      if_neg (by rw [mB]; rintro ⟨hc, -⟩; omega),
      if_neg (by rw [mG]; omega),
      if_pos ⟨by omega, hfull⟩,
      if_pos ⟨hcorrect, by rw [mT]; exact hsize⟩]
  · -- hash
    simp only [alignedSpecialSize, mH] at hsize
    simp only [specCorrectTrailer] at hcorrect
    unfold GetSpecialSectionType
    rw [if_neg hnotle, if_neg (by omega), if_neg (by omega),
      if_neg (by rw [m4]; omega),
      if_neg (by rw [mS]; rintro ⟨hc, -⟩; omega),
      if_neg (by rw [mB]; rintro ⟨hc, -⟩; omega),
      if_neg (by rw [mG]; omega),
      if_pos ⟨by omega, hfull⟩,
      if_neg (by rw [hcorrect]; rintro ⟨hle, -⟩; exact absurd hle (by decide)),
      if_pos ⟨hcorrect, by rw [mH]; exact hsize⟩]
  · -- gist
    simp only [alignedSpecialSize, mI] at hsize
    simp only [specCorrectTrailer] at hcorrect
    unfold GetSpecialSectionType
    rw [if_neg hnotle, if_neg (by omega), if_neg (by omega),
      if_neg (by rw [m4]; omega),
      if_neg (by rw [mS]; rintro ⟨hc, -⟩; omega),
      if_neg (by rw [mB]; rintro ⟨hc, -⟩; omega),
      if_neg (by rw [mG]; omega),
      if_pos ⟨by omega, hfull⟩,
      if_neg (by rw [hcorrect]; rintro ⟨hle, -⟩; exact absurd hle (by decide)),
      if_neg (by rw [hcorrect]; rintro ⟨heq, -⟩; exact absurd heq (by decide)),
      if_pos ⟨hcorrect, by rw [mI]; exact hsize⟩]
  · -- gin
    simp only [alignedSpecialSize, mG] at hsize
    simp only [specCorrectTrailer] at hcorrect
    have hpos : pdSpecial p.buf + 6 = p.blockSize - 2 := by omega
    have hflag : read16 p.buf (p.blockSize - 2) ≤ 255 := by
      have := hcorrect
      unfold ginFlags at this
      rw [hpos] at this
      exact this
    unfold GetSpecialSectionType
    rw [if_neg hnotle, if_neg (by omega), if_neg (by omega),
      if_pos (by rw [m4]; exact hsize), if_pos hfull,
      if_neg (hginProviso rfl),
      if_neg (by
        rintro ⟨-, hpt⟩
        rw [hpt] at hflag
        exact absurd hflag (by decide)),
      if_neg (by
        rintro ⟨-, -, hbt⟩
        unfold BrinPageType at hbt
        rw [hpos] at hbt
        rcases hbt with hbt | hbt | hbt <;> rw [hbt] at hflag <;>
          exact absurd hflag (by decide)),
      if_pos (by rw [mG]; exact hsize)]
  · -- spgist
    simp only [alignedSpecialSize, mS] at hsize
    simp only [specCorrectTrailer] at hcorrect
    obtain ⟨hid, hflags⟩ := hcorrect
    have hr : read32 p.buf (pdSpecial p.buf)
        = read16 p.buf (pdSpecial p.buf) + 65536 * read16 p.buf (pdSpecial p.buf + 2) :=
      rfl
    have hflags' : read16 p.buf (pdSpecial p.buf) ≤ 15 := hflags
    unfold GetSpecialSectionType
    rw [if_neg hnotle, if_neg (by omega), if_neg (by omega),
      if_pos (by rw [m4]; exact hsize), if_pos hfull,
      if_neg (by
        rw [hr]
        unfold SEQUENCE_MAGIC
        have := hr16lt (pdSpecial p.buf + 2)
        omega),
      if_pos ⟨by rw [mS]; exact hsize, hid⟩]
  · -- brin
    simp only [alignedSpecialSize, mB] at hsize
    simp only [specCorrectTrailer] at hcorrect
    obtain ⟨htype, hzero⟩ := hcorrect
    have hpos : pdSpecial p.buf + 6 = p.blockSize - 2 := by omega
    unfold GetSpecialSectionType
    rw [if_neg hnotle, if_neg (by omega), if_neg (by omega),
      if_pos (by rw [m4]; exact hsize), if_pos hfull,
      if_neg (by rw [hzero]; decide),
      if_neg (by
        rintro ⟨-, hpt⟩
        unfold BrinPageType at htype
        rw [hpos] at htype
        rw [hpt] at htype
        rcases htype with h | h | h <;> exact absurd h (by decide)),
      if_pos ⟨by rw [mB]; exact hsize, hfull, htype⟩]

/-- C5 (witness): the amended theorem at the concrete btree page. -/
theorem claimC5_witness :
    recognizedVariant SpecialSection.btree ∧
    GetSpecialSectionType btreePage = SpecialSection.btree :=
  ⟨by decide,
   claimC5_theorem SpecialSection.btree btreePage (by decide) (by decide)
     (by decide) (by decide) (by decide) (fun h => by cases h)⟩

/-- With checksum verification off, a fully-read valid header neither stops
the page nor touches the sticky flag. -/
theorem pageHeader_rc_exit (p : PageIn) (ck e : Nat)
    (hfit : sizeOfPageHeaderData +
      PageGetMaxOffsetNumber p.buf * sizeOfItemIdData ≤ p.bytesToFormat)
    (hinv : ¬ headerInvalid p) :
    (EmitXmlPageHeader p noOpts ck e).rc = 0 ∧
    (EmitXmlPageHeader p noOpts ck e).exitCode = e := by
  simp only [sizeOfPageHeaderData, sizeOfItemIdData] at hfit
  have hlt : ¬ p.bytesToFormat < sizeOfPageHeaderData := by
    simp only [sizeOfPageHeaderData]
    omega
  have hrc : ¬ (0 < PageGetMaxOffsetNumber p.buf ∧
      p.bytesToFormat < sizeOfPageHeaderData +
        PageGetMaxOffsetNumber p.buf * sizeOfItemIdData) := by
    simp only [sizeOfPageHeaderData, sizeOfItemIdData]
    omega
  unfold EmitXmlPageHeader
  rw [if_neg hlt]
  simp only [if_neg hrc, if_neg hinv]
  refine ⟨by simp [EOF_ENCOUNTERED], ?_⟩
  simp [noOpts, EOF_ENCOUNTERED]

/-- The body switch leaves the sticky flag alone on a non-first-segment page
with an empty item array. -/
theorem emitXmlPageBody_clean (v : SpecialSection) (blkno segno : Nat)
    (p : PageIn) (e : Nat) (hseg : segno ≠ 0)
    (hmax : PageGetMaxOffsetNumber p.buf = 0) :
    (emitXmlPageBody v blkno segno p e).2 = e := by
  unfold emitXmlPageBody
  rw [if_neg (by rintro ⟨-, h, -⟩; exact hseg h)]
  split_ifs <;>
    first
      | rfl
      | (show (EmitXmlTuples v p e).1 = e
         unfold EmitXmlTuples
         rw [if_pos hmax])

/-- `EmitXmlSpecial` does not touch the sticky flag on recognized types. -/
theorem emitXmlSpecialExit_recognized (v : SpecialSection) (e : Nat)
    (h1 : v ≠ .errUnknown) (h2 : v ≠ .errBoundary) (h3 : v ≠ .none) :
    emitXmlSpecialExit v e = e := by
  cases v <;>
    first
      | rfl
      | exact absurd rfl h1
      | exact absurd rfl h2
      | exact absurd rfl h3

/-- One `EmitXmlPage` call on a clean page, with all options off and outside
segment 0: the driver state evolves exactly by the first-seen-type update and
the mismatch check, and the page's body is decoded. -/
theorem emitXmlPage_clean_step (ck blkno segno : Nat) (p : PageIn)
    (ds : DriverState) (hseg : segno ≠ 0) (hclean : cleanScanPage p) :
    (EmitXmlPage noOpts ck blkno segno p ds).ds =
      { firstType :=
          if ds.firstType = .errUnknown then GetSpecialSectionType p
          else ds.firstType,
        exitCode :=
          if (if ds.firstType = .errUnknown then GetSpecialSectionType p
              else ds.firstType) ≠ GetSpecialSectionType p then 1
          else ds.exitCode } ∧
    ∃ bk, PageAction.body bk ∈ (EmitXmlPage noOpts ck blkno segno p ds).actions := by
  obtain ⟨hnew, hfit, hinv, hmax, hu, hb⟩ := hclean
  have hhd := pageHeader_rc_exit p ck
    (if (if ds.firstType = .errUnknown then GetSpecialSectionType p
        else ds.firstType) ≠ GetSpecialSectionType p then 1 else ds.exitCode)
    hfit hinv
  have hbody := emitXmlPageBody_clean (GetSpecialSectionType p) blkno segno p
    (if (if ds.firstType = .errUnknown then GetSpecialSectionType p
        else ds.firstType) ≠ GetSpecialSectionType p then 1 else ds.exitCode)
    hseg hmax
  unfold EmitXmlPage
  rw [if_neg hnew]
  simp only [if_neg (show ¬ (noOpts.skipLsn = true ∧
    GetPageLsn p.buf < noOpts.afterThreshold) by simp [noOpts])]
  simp only [if_neg (show ¬ (noOpts.skipLeaf = true ∧
    IsLeafPage (GetSpecialSectionType p) p = true) by simp [noOpts])]
  rw [if_neg (show ¬ ((EmitXmlPageHeader p noOpts ck _).rc = EOF_ENCOUNTERED) by
    rw [hhd.1]
    decide)]
  constructor
  · by_cases hv : GetSpecialSectionType p = SpecialSection.none
    · rw [if_neg (show ¬ (GetSpecialSectionType p ≠ SpecialSection.none) by
        simp [hv])]
      rw [hhd.2, hbody]
    · rw [if_pos hv, hhd.2, hbody,
        emitXmlSpecialExit_recognized _ _ hu hb hv]
  · split_ifs <;>
      exact ⟨_, List.mem_append_right _ (List.mem_cons_self _ _)⟩

/-- The scan over clean pages, starting from a tracker already holding a
non-sentinel first-seen type: the tracker never changes, the sticky flag ends
nonzero exactly when it started nonzero or some page's variant mismatches the
tracker, and every page's body is decoded. -/
theorem scanPages_clean (ck : PageIn → Nat) (segno : Nat) (hseg : segno ≠ 0)
    (ps : List PageIn) :
    ∀ blkno : Nat, ∀ ds : DriverState, (∀ p ∈ ps, cleanScanPage p) →
      ds.firstType ≠ .errUnknown →
      ((scanPages noOpts ck segno ps blkno ds).1.firstType = ds.firstType ∧
       ((scanPages noOpts ck segno ps blkno ds).1.exitCode ≠ 0 ↔
         ds.exitCode ≠ 0 ∨
           ∃ p ∈ ps, GetSpecialSectionType p ≠ ds.firstType) ∧
       ∀ acts ∈ (scanPages noOpts ck segno ps blkno ds).2,
         ∃ bk, PageAction.body bk ∈ acts) := by
  induction ps with
  | nil =>
      intro blkno ds hclean hft
      refine ⟨rfl, by simp [scanPages], by simp [scanPages]⟩
  | cons p ps ih =>
      intro blkno ds hclean hft
      obtain ⟨hds, hbody⟩ :=
        emitXmlPage_clean_step (ck p) blkno segno p ds hseg (hclean p (by simp))
      rw [if_neg hft] at hds
      have ihr := ih (blkno + 1)
        { firstType := ds.firstType,
          exitCode :=
            if ds.firstType ≠ GetSpecialSectionType p then 1 else ds.exitCode }
        (fun q hq => hclean q (by simp [hq])) hft
      simp only [scanPages]
      rw [hds]
      refine ⟨ihr.1, ?_, ?_⟩
      · rw [ihr.2.1]
        dsimp only
        by_cases hm : ds.firstType ≠ GetSpecialSectionType p
        · rw [if_pos hm]
          constructor
          · intro _
            exact Or.inr ⟨p, by simp, fun hh => hm hh.symm⟩
          · intro _
            omega
        · rw [if_neg hm]
          push_neg at hm
          constructor
          · rintro (he | ⟨q, hq, hne⟩)
            · exact Or.inl he
            · exact Or.inr ⟨q, by simp [hq], hne⟩
          · rintro (he | ⟨q, hq, hne⟩)
            · exact Or.inl he
            · rcases (by simpa using hq : q = p ∨ q ∈ ps) with rfl | hq'
              · exact absurd hm.symm hne
              · exact Or.inr ⟨q, hq', hne⟩
      · intro acts hacts
        rcases (by simpa using hacts :
            acts = (EmitXmlPage noOpts (ck p) blkno segno p ds).actions ∨
              acts ∈ (scanPages noOpts ck segno ps (blkno + 1)
                { firstType := ds.firstType,
                  exitCode :=
                    if ds.firstType ≠ GetSpecialSectionType p then 1
                    else ds.exitCode }).2) with rfl | h'
        · exact hbody
        · exact ihr.2.2 acts h'

/-- C8 (counterexample): a file whose first initialized page classifies to
the unknown-error variant followed by a btree page.  The first-seen variant
is NOT remembered — `firstType` ends up as btree, because the unknown-error
value doubles as the tracker's "unset" sentinel — and although the second
decoded page's variant differs from the first's, the variant-mismatch error
is never reported on any page of the scan. -/
theorem claimC8_counterexample :
    ¬ PageIsNew unknownTrailerPage.buf ∧
    ¬ PageIsNew btreePage.buf ∧
    GetSpecialSectionType unknownTrailerPage ≠ GetSpecialSectionType btreePage ∧
    (scanPages noOpts (fun _ => 0) 1 [unknownTrailerPage, btreePage] 1
        initialDriverState).1.firstType = GetSpecialSectionType btreePage ∧
    (scanPages noOpts (fun _ => 0) 1 [unknownTrailerPage, btreePage] 1
        initialDriverState).1.firstType ≠ GetSpecialSectionType unknownTrailerPage ∧
    ∀ acts ∈ (scanPages noOpts (fun _ => 0) 1 [unknownTrailerPage, btreePage] 1
        initialDriverState).2, PageAction.mismatchError ∉ acts := by
  decide

/-- C8 (amended): on a scan (options off, outside segment 0) of clean
initialized pages — fully read, valid header, empty item array, recognized or
heap variant — the first page's variant, which is then not the unknown-error
sentinel, is remembered for the whole file; the sticky error flag ends
nonzero exactly when some later page's variant differs from it; and every
page, mismatching or not, still has its body decoded.  (When the first
initialized page classifies to the unknown-error variant, the tracker treats
it as "unset": that variant is not remembered and its mismatch with the next
page is not reported — see the counterexample.) -/
theorem claimC8_theorem (ck : PageIn → Nat) (segno blkno : Nat)
    (hseg : segno ≠ 0) (p0 : PageIn) (rest : List PageIn)
    (hall : ∀ p ∈ p0 :: rest, cleanScanPage p) :
    (scanPages noOpts ck segno (p0 :: rest) blkno initialDriverState).1.firstType
      = GetSpecialSectionType p0 ∧
    ((scanPages noOpts ck segno (p0 :: rest) blkno initialDriverState).1.exitCode
        ≠ 0 ↔
      ∃ p ∈ rest, GetSpecialSectionType p ≠ GetSpecialSectionType p0) ∧
    (∀ acts ∈ (scanPages noOpts ck segno (p0 :: rest) blkno initialDriverState).2,
      ∃ bk, PageAction.body bk ∈ acts) := by
  obtain ⟨hds, hbody⟩ := emitXmlPage_clean_step (ck p0) blkno segno p0
    initialDriverState hseg (hall p0 (by simp))
  have hds' : (EmitXmlPage noOpts (ck p0) blkno segno p0 initialDriverState).ds
      = { firstType := GetSpecialSectionType p0, exitCode := 0 } := by
    rw [hds]
    simp [initialDriverState]
  have hscan := scanPages_clean ck segno hseg rest (blkno + 1)
    { firstType := GetSpecialSectionType p0, exitCode := 0 }
    (fun q hq => hall q (by simp [hq]))
    ((hall p0 (by simp)).2.2.2.2.1)
  simp only [scanPages]
  rw [hds']
  refine ⟨hscan.1, ?_, ?_⟩
  · rw [hscan.2.1]
    simp
  · intro acts hacts
    rcases (by simpa using hacts :
        acts = (EmitXmlPage noOpts (ck p0) blkno segno p0 initialDriverState).actions ∨
          acts ∈ (scanPages noOpts ck segno rest (blkno + 1)
            { firstType := GetSpecialSectionType p0, exitCode := 0 }).2)
        with rfl | h'
    · exact hbody
    · exact hscan.2.2 acts h'

/-- C8 (witness): the amended theorem on a two-btree-page scan. -/
theorem claimC8_witness :
    (scanPages noOpts (fun _ => 0) 1 [btreePage, btreePage] 1
        initialDriverState).1.firstType = GetSpecialSectionType btreePage ∧
    ((scanPages noOpts (fun _ => 0) 1 [btreePage, btreePage] 1
        initialDriverState).1.exitCode ≠ 0 ↔
      ∃ p ∈ [btreePage], GetSpecialSectionType p ≠ GetSpecialSectionType btreePage) ∧
    (∀ acts ∈ (scanPages noOpts (fun _ => 0) 1 [btreePage, btreePage] 1
        initialDriverState).2, ∃ bk, PageAction.body bk ∈ acts) :=
  claimC8_theorem (fun _ => 0) 1 1 (by decide) btreePage [btreePage] (by decide)

end PgHexedit
